import Mathlib

/-!
# A shallow embedding of the ray tracer in `src/main.c`

The C program computes with `float`.  Here a `float` is a `CFloat K`: either an exact
value of a linearly ordered field `K` (the reals, or the rationals when a term has to be
evaluated), or one of the IEEE special values `+inf`, `-inf`, `NaN`.  Arithmetic on finite
values is exact (no rounding, no overflow); the special values follow IEEE 754, so that
`0/0`, `inf - inf` and `0 * inf` are `NaN` and every ordered comparison with `NaN` is
false.  Signed zeros are not distinguished: every divisor the program forms
(`2*a` with `a` a sum of squares, a product of two vector lengths) is a non-negative
quantity, so a zero divisor is always `+0`, which is what `CFloat.div` assumes.

The library functions `sqrt` and `powf` and the raymath constant `EPSILON` are parameters
(`Env`).  An `assert` that fails and a conversion of `NaN` to `unsigned char` are faults
(`Except Fault`).  The arrays `spheres` and `lights` with their counts are lists, and the
two loops are left folds over them.  A C `int` is an `Int`; the division of `int` is the
truncating `Int.tdiv`.
-/

namespace RayTracer

/-! ## Floats -/

/-- Values of the C type `float`: an exact finite value, or an IEEE special value. -/
inductive CFloat (K : Type) where
  | fin (x : K)
  | pinf
  | ninf
  | nan
deriving DecidableEq

/-- What the program takes from outside `src/main.c`, as parameters: the square root
on non-negative finite values (libm's `sqrt` and `sqrtf`), libm's `powf`, and raymath's
constant `EPSILON`. -/
structure Env (K : Type) where
  sqrt : K → K
  powf : CFloat K → CFloat K → CFloat K
  EPSILON : K

namespace CFloat

variable {K : Type} [LinearOrderedField K]

/-- IEEE addition with exact finite sums. -/
def add : CFloat K → CFloat K → CFloat K
  | fin x, fin y => fin (x + y)
  | fin _, pinf => pinf
  | fin _, ninf => ninf
  | pinf, fin _ => pinf
  | ninf, fin _ => ninf
  | pinf, pinf => pinf
  | ninf, ninf => ninf
  | pinf, ninf => nan
  | ninf, pinf => nan
  | nan, _ => nan
  | _, nan => nan

/-- IEEE negation. -/
def neg : CFloat K → CFloat K
  | fin x => fin (-x)
  | pinf => ninf
  | ninf => pinf
  | nan => nan

/-- The product of an infinity of sign `pos` with the finite value `x`. -/
def infTimes (pos : Bool) (x : K) : CFloat K :=
  if x = 0 then nan else if (0 < x) = pos then pinf else ninf

/-- IEEE multiplication with exact finite products. -/
def mul : CFloat K → CFloat K → CFloat K
  | fin x, fin y => fin (x * y)
  | fin x, pinf => infTimes true x
  | fin x, ninf => infTimes false x
  | pinf, fin y => infTimes true y
  | ninf, fin y => infTimes false y
  | pinf, pinf => pinf
  | ninf, ninf => pinf
  | pinf, ninf => ninf
  | ninf, pinf => ninf
  | nan, _ => nan
  | _, nan => nan

/-- IEEE division with exact finite quotients; a zero divisor is `+0`. -/
def div : CFloat K → CFloat K → CFloat K
  | fin x, fin y =>
      if y = 0 then (if x = 0 then nan else if 0 < x then pinf else ninf) else fin (x / y)
  | fin _, pinf => fin 0
  | fin _, ninf => fin 0
  | pinf, fin y => if 0 ≤ y then pinf else ninf
  | ninf, fin y => if 0 ≤ y then ninf else pinf
  | pinf, pinf => nan
  | ninf, ninf => nan
  | pinf, ninf => nan
  | ninf, pinf => nan
  | nan, _ => nan
  | _, nan => nan

instance : Add (CFloat K) := ⟨add⟩
instance : Neg (CFloat K) := ⟨neg⟩
instance : Sub (CFloat K) := ⟨fun a b => add a (neg b)⟩
instance : Mul (CFloat K) := ⟨mul⟩
instance : Div (CFloat K) := ⟨div⟩

/-- The C comparison `a < b`: false as soon as one side is `NaN`. -/
def ltb : CFloat K → CFloat K → Bool
  | fin x, fin y => decide (x < y)
  | fin _, pinf => true
  | ninf, fin _ => true
  | ninf, pinf => true
  | _, _ => false

/-- The C comparison `a <= b`: false as soon as one side is `NaN`. -/
def leb : CFloat K → CFloat K → Bool
  | fin x, fin y => decide (x ≤ y)
  | fin _, pinf => true
  | ninf, fin _ => true
  | ninf, pinf => true
  | pinf, pinf => true
  | ninf, ninf => true
  | _, _ => false

/-- The C comparison `a == b`: false as soon as one side is `NaN`. -/
def eqb : CFloat K → CFloat K → Bool
  | fin x, fin y => decide (x = y)
  | pinf, pinf => true
  | ninf, ninf => true
  | _, _ => false

instance : LT (CFloat K) := ⟨fun a b => ltb a b = true⟩
instance : LE (CFloat K) := ⟨fun a b => leb a b = true⟩
instance (a b : CFloat K) : Decidable (a < b) := inferInstanceAs (Decidable (ltb a b = true))
instance (a b : CFloat K) : Decidable (a ≤ b) := inferInstanceAs (Decidable (leb a b = true))

/-- The C comparison `a != b`, the negation of `==`: true as soon as one side is `NaN`. -/
def ne (a b : CFloat K) : Prop := eqb a b = false

instance (a b : CFloat K) : Decidable (ne a b) := inferInstanceAs (Decidable (eqb a b = false))

/-- The C library `sqrt`, on top of the square root `env.sqrt` of non-negative values. -/
def sqrt (env : Env K) : CFloat K → CFloat K
  | fin x => if x < 0 then nan else fin (env.sqrt x)
  | pinf => pinf
  | ninf => nan
  | nan => nan

end CFloat

open CFloat

variable {K : Type} [LinearOrderedField K]

/-! ## raymath vectors -/

/-- Modelled from the spec: raylib's type `Vector2` is not under `src/`; two `float`
components `x`, `y`. -/
structure Vector2 (K : Type) where
  x : CFloat K
  y : CFloat K

/-- Modelled from the spec: raylib's type `Vector3` is not under `src/`; the spec's
3-vector, three `float` components `x`, `y`, `z`. -/
structure Vector3 (K : Type) where
  x : CFloat K
  y : CFloat K
  z : CFloat K

/-- Modelled from the spec: raymath's `Vector3Add` is not under `src/`; it is the
component-wise sum of the spec's vector primitive `add`. -/
def Vector3Add (v1 v2 : Vector3 K) : Vector3 K :=
  ⟨v1.x + v2.x, v1.y + v2.y, v1.z + v2.z⟩

/-- Modelled from the spec: raymath's `Vector3Subtract` is not under `src/`; it is the
component-wise difference of the spec's vector primitive `subtract`. -/
def Vector3Subtract (v1 v2 : Vector3 K) : Vector3 K :=
  ⟨v1.x - v2.x, v1.y - v2.y, v1.z - v2.z⟩

/-- Modelled from the spec: raymath's `Vector3Scale` is not under `src/`; it multiplies
every component by the scalar (the spec's vector primitive `scale`). -/
def Vector3Scale (v : Vector3 K) (scalar : CFloat K) : Vector3 K :=
  ⟨v.x * scalar, v.y * scalar, v.z * scalar⟩

/-- Modelled from the spec: raymath's `Vector3DotProduct` is not under `src/`; it is the
spec's vector primitive `dot product`, summed left to right. -/
def Vector3DotProduct (v1 v2 : Vector3 K) : CFloat K :=
  v1.x * v2.x + v1.y * v2.y + v1.z * v2.z

/-- Modelled from the spec: raymath's `Vector3Length` is not under `src/`; it is the
spec's vector primitive `length`, the square root of the sum of the squares. -/
def Vector3Length (env : Env K) (v : Vector3 K) : CFloat K :=
  CFloat.sqrt env (v.x * v.x + v.y * v.y + v.z * v.z)

/-- Modelled from the spec: raymath's `Vector3Normalize` is not under `src/`; it is the
spec's vector primitive `normalize`: a vector of length zero is returned unchanged,
any other vector is multiplied by the inverse of its length. -/
def Vector3Normalize (env : Env K) (v : Vector3 K) : Vector3 K :=
  let length := Vector3Length env v
  if CFloat.ne length (fin 0) then
    let ilength := fin 1 / length
    ⟨v.x * ilength, v.y * ilength, v.z * ilength⟩
  else v

/-- Modelled from the spec: raymath's `Clamp` is not under `src/`; it is the spec's
`clamp` to `[min, max]`, written with the two comparisons raymath makes. -/
def Clamp (value min max : CFloat K) : CFloat K :=
  let result := if value < min then min else value
  if result > max then max else result

/-! ## Scene data -/

/-- Modelled from the spec: raylib's type `Color` is not under `src/`; the spec's colour,
channels in `[0,255]`: four `unsigned char` components `r`, `g`, `b`, `a`. -/
structure Color where
  r : Fin 256
  g : Fin 256
  b : Fin 256
  a : Fin 256
deriving DecidableEq

/-- The struct `Sphere`. -/
structure Sphere (K : Type) where
  center : Vector3 K
  radius : CFloat K
  color : Color
  specular : CFloat K
  reflective : CFloat K

/-- The struct `light` with its tag `my_type`: one constructor per value of `light_type`,
carrying the member of the union that the tag selects. -/
inductive light (K : Type) where
  | ambient (intensity : CFloat K)
  | point (intensity : CFloat K) (position : Vector3 K)
  | directional (intensity : CFloat K) (direction : Vector3 K)

/-! ## Raycasting -/

/-- The struct `ray_sphere_intersection_info`. -/
structure ray_sphere_intersection_info (K : Type) where
  is_intersecting : Bool
  intersections : Vector2 K

/-- The local `discriminant` of `ray_sphere_intersection`: `b*b - 4*a*c` with
`a = rd.rd`, `b = 2*(CO.rd)`, `c = CO.CO - sr*sr` and `CO = ro - so`. -/
def discriminant (so : Vector3 K) (sr : CFloat K) (ro rd : Vector3 K) : CFloat K :=
  let CO := Vector3Subtract ro so
  let a := Vector3DotProduct rd rd
  let b := fin 2 * Vector3DotProduct CO rd
  let c := Vector3DotProduct CO CO - (sr * sr)
  (b * b) - (fin 4 * a * c)

/-- The function `ray_sphere_intersection`. -/
def ray_sphere_intersection (env : Env K) (so : Vector3 K) (sr : CFloat K)
    (ro rd : Vector3 K) : ray_sphere_intersection_info K :=
  let CO := Vector3Subtract ro so
  let a := Vector3DotProduct rd rd
  let b := fin 2 * Vector3DotProduct CO rd
  let discriminant := discriminant so sr ro rd
  if discriminant < fin 0 then
    ⟨false, ⟨fin (-1), fin (-1)⟩⟩
  else
    let t1 := (-b + CFloat.sqrt env discriminant) / (fin 2 * a)
    let t2 := (-b - CFloat.sqrt env discriminant) / (fin 2 * a)
    ⟨true, ⟨t1, t2⟩⟩

/-- The struct `ray_closest_intersection_result`; `closest_sphere` is `none` while the
C local `closestSphere` is still uninitialised. -/
structure ray_closest_intersection_result (K : Type) where
  has_found : Bool
  closest_sphere : Option (Sphere K)
  closest_t : CFloat K

/-- One iteration of the loop of `ray_closest_intersection`, on the sphere `s`. -/
def closest_loop_body (env : Env K) (tmin tmax : CFloat K) (ro rd : Vector3 K)
    (acc : ray_closest_intersection_result K) (s : Sphere K) :
    ray_closest_intersection_result K :=
  let hit_info := ray_sphere_intersection env s.center s.radius ro rd
  let t1 := hit_info.intersections.x
  let t2 := hit_info.intersections.y
  if hit_info.is_intersecting then
    let acc1 :=
      if t1 > tmin ∧ t1 < tmax then
        if t1 < acc.closest_t then ⟨true, some s, t1⟩ else acc
      else acc
    if t2 > tmin ∧ t2 < tmax then
      if t2 < acc1.closest_t then ⟨true, some s, t2⟩ else acc1
    else acc1
  else acc

/-- The function `ray_closest_intersection`; the array `spheres` with its `sphere_count`
is a list, and the search starts from `closest_t = INFINITY`, nothing found. -/
def ray_closest_intersection (env : Env K) (spheres : List (Sphere K))
    (tmin tmax : CFloat K) (ro rd : Vector3 K) : ray_closest_intersection_result K :=
  spheres.foldl (closest_loop_body env tmin tmax ro rd) ⟨false, none, pinf⟩

/-! ## Light calculations -/

/-- The function `ReflectRay`. -/
def ReflectRay (ray normal : Vector3 K) : Vector3 K :=
  let reflection := Vector3Scale normal (Vector3DotProduct normal ray * fin 2)
  Vector3Subtract reflection ray

/-- How a run of the program can stop without a value. -/
inductive Fault where
  | assertion_failed
  | undefined_conversion
  | uninitialised_read
deriving DecidableEq

/-- The part of the loop body of `compute_light` that a point light and a directional
light share, once `L` and `light_intensity` are set: the shadow check (whose `continue`
leaves `intensity` as it is), the diffuse term and the specular term. -/
def light_contribution (env : Env K) (spheres : List (Sphere K)) (tmax : CFloat K)
    (point normal view_vector : Vector3 K) (specular : CFloat K)
    (intensity : CFloat K) (L : Vector3 K) (light_intensity : CFloat K) : CFloat K :=
  let shadow_check_result :=
    ray_closest_intersection env spheres (fin (1 / 1000)) tmax point L
  if shadow_check_result.has_found then intensity
  else
    let n_dot_l := Vector3DotProduct normal L
    let intensity1 :=
      if n_dot_l > fin 0 then
        intensity + light_intensity * n_dot_l / (Vector3Length env normal * Vector3Length env L)
      else intensity
    if CFloat.ne specular (fin (-1)) then
      let reflection := ReflectRay L normal
      let reflection_dot_view := Vector3DotProduct reflection view_vector
      if reflection_dot_view > fin 0 then
        intensity1 + light_intensity *
          env.powf (reflection_dot_view /
            (Vector3Length env reflection * Vector3Length env view_vector)) specular
      else intensity1
    else intensity1

/-- One iteration of the loop of `compute_light`, on the light `current_light`. -/
def light_loop_body (env : Env K) (spheres : List (Sphere K)) (tmax : CFloat K)
    (point normal view_vector : Vector3 K) (specular : CFloat K)
    (intensity : CFloat K) (current_light : light K) : CFloat K :=
  match current_light with
  | .ambient i => intensity + i
  | .point i position =>
      light_contribution env spheres tmax point normal view_vector specular intensity
        (Vector3Subtract position point) i
  | .directional i direction =>
      light_contribution env spheres tmax point normal view_vector specular intensity
        (Vector3Add direction point) i

/-- The function `compute_light`: the `assert` on the normal, then the loop over the
lights from `intensity = 0`. -/
def compute_light (env : Env K) (spheres : List (Sphere K)) (tmax : CFloat K)
    (lights : List (light K)) (point normal view_vector : Vector3 K)
    (specular : CFloat K) : Except Fault (CFloat K) :=
  if Vector3Length env normal < fin 1 + fin env.EPSILON then
    .ok (lights.foldl
      (light_loop_body env spheres tmax point normal view_vector specular) (fin 0))
  else .error .assertion_failed

/-! ## Raytracing -/

section Tracing

variable [FloorRing K]

/-- The C conversion of a `float` to `unsigned char`: the value truncated toward zero when
that fits the type, undefined otherwise (in particular for `NaN`). -/
def toUChar : CFloat K → Except Fault (Fin 256)
  | fin x =>
      if -1 < x ∧ x < 256 then .ok ⟨⌊x⌋₊ % 256, Nat.mod_lt _ (by decide)⟩
      else .error .undefined_conversion
  | _ => .error .undefined_conversion

/-- The initialiser `(Color){r, g, b, 255}` with `float` expressions for the channels. -/
def mkColor (r g b : CFloat K) : Except Fault Color := do
  let r1 ← toUChar r
  let g1 ← toUChar g
  let b1 ← toUChar b
  pure ⟨r1, g1, b1, 255⟩

/-- The `float` value of an `unsigned char` channel. -/
def ofUChar (c : Fin 256) : CFloat K := fin ((c.val : K))

/-- The function `ColorScaleFactor`. -/
def ColorScaleFactor (col : Color) (factor : CFloat K) : Except Fault Color :=
  mkColor
    (Clamp (ofUChar col.r * factor) (fin 0) (fin 255))
    (Clamp (ofUChar col.g * factor) (fin 0) (fin 255))
    (Clamp (ofUChar col.b * factor) (fin 0) (fin 255))

/-- The background colour `(Color){24, 1, 97, 255}` that `trace_ray` returns on a miss. -/
def background : Color := ⟨24, 1, 97, 255⟩

/-- The function `trace_ray`. -/
def trace_ray (env : Env K) (spheres : List (Sphere K)) (lights : List (light K))
    (ro rd cam_pos : Vector3 K) (tmin tmax : CFloat K) (recursion_depth : Int) :
    Except Fault Color :=
  let result := ray_closest_intersection env spheres tmin tmax ro rd
  let closest_t := result.closest_t
  if result.has_found then
    match result.closest_sphere with
    | none => .error .uninitialised_read
    | some closestSphere =>
      let intersection_point := Vector3Add ro (Vector3Scale rd closest_t)
      let surface_normal :=
        Vector3Normalize env (Vector3Subtract intersection_point closestSphere.center)
      let view_vector := Vector3Subtract cam_pos intersection_point
      match compute_light env spheres tmax lights intersection_point surface_normal
          view_vector closestSphere.specular with
      | .error e => .error e
      | .ok light_intensity =>
        match mkColor
            (Clamp (ofUChar closestSphere.color.r * light_intensity) (fin 0) (fin 255))
            (Clamp (ofUChar closestSphere.color.g * light_intensity) (fin 0) (fin 255))
            (Clamp (ofUChar closestSphere.color.b * light_intensity) (fin 0) (fin 255)) with
        | .error e => .error e
        | .ok resulted_color =>
          let reflective := closestSphere.reflective
          if reflective < fin 0 + fin env.EPSILON ∨ recursion_depth ≤ 0 then
            .ok resulted_color
          else
            let reflection := ReflectRay (Vector3Scale rd (fin (-1))) surface_normal
            match trace_ray env spheres lights intersection_point reflection cam_pos
                (fin (1 / 100)) tmax (recursion_depth - 1) with
            | .error e => .error e
            | .ok reflected_color =>
              match ColorScaleFactor resulted_color (fin 1 - reflective) with
              | .error e => .error e
              | .ok resulted_color1 =>
                match ColorScaleFactor reflected_color reflective with
                | .error e => .error e
                | .ok reflected_color1 =>
                  mkColor
                    (Clamp (fin ((resulted_color1.r.val + reflected_color1.r.val : ℕ) : K))
                      (fin 0) (fin 255))
                    (Clamp (fin ((resulted_color1.g.val + reflected_color1.g.val : ℕ) : K))
                      (fin 0) (fin 255))
                    (Clamp (fin ((resulted_color1.b.val + reflected_color1.b.val : ℕ) : K))
                      (fin 0) (fin 255))
  else
    .ok background
termination_by recursion_depth.toNat
decreasing_by
  rename_i h
  omega

/-- The number of invocations of `trace_ray` that the call with these arguments makes,
itself included: the control flow of `trace_ray`, with one more invocation for the
recursive call when it is reached. -/
def trace_ray_calls (env : Env K) (spheres : List (Sphere K)) (lights : List (light K))
    (ro rd cam_pos : Vector3 K) (tmin tmax : CFloat K) (recursion_depth : Int) : Nat :=
  let result := ray_closest_intersection env spheres tmin tmax ro rd
  let closest_t := result.closest_t
  if result.has_found then
    match result.closest_sphere with
    | none => 1
    | some closestSphere =>
      let intersection_point := Vector3Add ro (Vector3Scale rd closest_t)
      let surface_normal :=
        Vector3Normalize env (Vector3Subtract intersection_point closestSphere.center)
      let view_vector := Vector3Subtract cam_pos intersection_point
      match compute_light env spheres tmax lights intersection_point surface_normal
          view_vector closestSphere.specular with
      | .error _ => 1
      | .ok light_intensity =>
        match mkColor
            (Clamp (ofUChar closestSphere.color.r * light_intensity) (fin 0) (fin 255))
            (Clamp (ofUChar closestSphere.color.g * light_intensity) (fin 0) (fin 255))
            (Clamp (ofUChar closestSphere.color.b * light_intensity) (fin 0) (fin 255)) with
        | .error _ => 1
        | .ok _ =>
          let reflective := closestSphere.reflective
          if reflective < fin 0 + fin env.EPSILON ∨ recursion_depth ≤ 0 then
            1
          else
            let reflection := ReflectRay (Vector3Scale rd (fin (-1))) surface_normal
            1 + trace_ray_calls env spheres lights intersection_point reflection cam_pos
              (fin (1 / 100)) tmax (recursion_depth - 1)
  else
    1
termination_by recursion_depth.toNat
decreasing_by
  rename_i h
  omega

end Tracing

/-- Two spheres that differ at most in their reflective coefficient. -/
def sameButReflective (a b : Sphere K) : Prop :=
  a.center = b.center ∧ a.radius = b.radius ∧ a.color = b.color ∧ a.specular = b.specular

/-! ## A concrete environment and the scenes of the spec's scenarios -/

/-- A `powf` over the rationals: exact for a finite base and a finite exponent that is a
natural number, `NaN` elsewhere. -/
def ratPowf : CFloat ℚ → CFloat ℚ → CFloat ℚ
  | fin x, fin y => if y = (⌊y⌋₊ : ℚ) then fin (x ^ ⌊y⌋₊) else nan
  | _, _ => nan

/-- An environment over the rationals, to evaluate the program on concrete scenes:
`Rat.sqrt` is the exact square root on squares of rationals, and `EPSILON` has the value
`0.000001` that raymath gives it. -/
def ratEnv : Env ℚ := ⟨Rat.sqrt, ratPowf, 1 / 1000000⟩

/-- The sphere of the spec's concrete scenarios: centre `(0,0,3)`, radius `1`, colour
`(255,0,0)`, specular `-1`, with the given reflective coefficient. -/
def scenarioSphere (reflective : K) : Sphere K :=
  ⟨⟨fin 0, fin 0, fin 3⟩, fin 1, ⟨255, 0, 0, 255⟩, fin (-1), fin reflective⟩

/-- A second sphere on the axis of the scenario's ray, behind the first one: centre
`(0,0,7)`, radius `1`. -/
def farSphere : Sphere ℚ :=
  ⟨⟨fin 0, fin 0, fin 7⟩, fin 1, ⟨0, 0, 255, 255⟩, fin (-1), fin 0⟩

/-- A sphere that the scenario's ray misses: centre `(0,5,3)`, radius `1`. -/
def missedSphere : Sphere ℚ :=
  ⟨⟨fin 0, fin 5, fin 3⟩, fin 1, ⟨0, 255, 0, 255⟩, fin (-1), fin 0⟩

/-- The ray origin `(0,0,0)` of the spec's concrete scenarios. -/
def scenarioOrigin : Vector3 K := ⟨fin 0, fin 0, fin 0⟩

/-- The ray direction `(0,0,1)` of the spec's concrete scenarios. -/
def scenarioDirection : Vector3 K := ⟨fin 0, fin 0, fin 1⟩

/-! ## Further parts of the program -/

/-- The compound literal of lines 290-295 of `trace_ray`, which blends the scaled local
colour `a` with the scaled reflected colour `b` (the spec's `add_colors`): per channel
the `int` sum of the two `unsigned char` values, clamped to `[0, 255]`, alpha `255`. -/
def add_colors (K : Type) [LinearOrderedField K] [FloorRing K] (a b : Color) :
    Except Fault Color :=
  mkColor
    (Clamp (fin ((a.r.val + b.r.val : ℕ) : K)) (fin 0) (fin 255))
    (Clamp (fin ((a.g.val + b.g.val : ℕ) : K)) (fin 0) (fin 255))
    (Clamp (fin ((a.b.val + b.b.val : ℕ) : K)) (fin 0) (fin 255))

/-- The shadow check of `compute_light` (lines 180-184) for one light at the shaded
point: whether the `continue` is taken.  An ambient light is not checked. -/
def shadow_check (env : Env K) (spheres : List (Sphere K)) (tmax : CFloat K)
    (point : Vector3 K) : light K → Bool
  | .ambient _ => false
  | .point _ position =>
      (ray_closest_intersection env spheres (fin (1 / 1000)) tmax point
        (Vector3Subtract position point)).has_found
  | .directional _ direction =>
      (ray_closest_intersection env spheres (fin (1 / 1000)) tmax point
        (Vector3Add direction point)).has_found

/-- The function `canvas_put_pixel`: the address `(Sx, Sy)` that it passes to raylib's
`DrawPixel`, given the values of `GetScreenWidth()` and `GetScreenHeight()`.  The C
division of `int` truncates toward zero. -/
def canvas_put_pixel (screenWidth screenHeight Cx Cy : Int) : Int × Int :=
  let Sx := screenWidth.tdiv 2 + Cx
  let Sy := screenHeight.tdiv 2 - Cy
  (Sx, Sy)

/-- The canvas coordinates `(x, y)` that the two `for` loops of `main` visit (lines
342-353): `x` from `-w/2` up to but excluding `w/2` and `y` from `-h/2` up to but
excluding `h/2`, where `main` sets both `w` and `h` to `GetScreenWidth()`. -/
def frame_loop_visits (screenWidth x y : Int) : Prop :=
  let w := screenWidth
  let h := screenWidth
  (-w).tdiv 2 ≤ x ∧ x < w.tdiv 2 ∧ (-h).tdiv 2 ≤ y ∧ y < h.tdiv 2

/-- A vector whose three components are finite values. -/
def Vector3.finite (v : Vector3 K) : Prop :=
  ∃ x y z : K, v = ⟨fin x, fin y, fin z⟩

/-- A light with a finite intensity `>= 0` and, when it has one, a finite position or
direction. -/
def light.wellFormed : light K → Prop
  | .ambient i => ∃ a : K, i = fin a ∧ 0 ≤ a
  | .point i position => (∃ a : K, i = fin a ∧ 0 ≤ a) ∧ position.finite
  | .directional i direction => (∃ a : K, i = fin a ∧ 0 ≤ a) ∧ direction.finite

/-- A sphere with the centre and the radius of the scenario's sphere and another colour:
the scenario's ray meets both at the same distances. -/
def twinSphere : Sphere ℚ :=
  ⟨⟨fin 0, fin 0, fin 3⟩, fin 1, ⟨0, 0, 255, 255⟩, fin (-1), fin 0⟩

/-! ## Facts about the float comparisons -/

namespace CFloat

theorem lt_iff (a b : CFloat K) : a < b ↔ ltb a b = true := Iff.rfl

theorem le_iff (a b : CFloat K) : a ≤ b ↔ leb a b = true := Iff.rfl

@[simp] theorem fin_lt_fin (x y : K) : (fin x < fin y) ↔ x < y := by
  simp [lt_iff, ltb]

@[simp] theorem fin_le_fin (x y : K) : (fin x ≤ fin y) ↔ x ≤ y := by
  simp [le_iff, leb]

@[simp] theorem not_nan_lt (a : CFloat K) : ¬ (nan < a) := by
  cases a <;> simp [lt_iff, ltb]

@[simp] theorem not_lt_nan (a : CFloat K) : ¬ (a < nan) := by
  cases a <;> simp [lt_iff, ltb]

@[simp] theorem not_nan_le (a : CFloat K) : ¬ (nan ≤ a) := by
  cases a <;> simp [le_iff, leb]

@[simp] theorem not_le_nan (a : CFloat K) : ¬ (a ≤ nan) := by
  cases a <;> simp [le_iff, leb]

@[simp] theorem fin_lt_pinf (x : K) : fin x < (pinf : CFloat K) := by
  simp [lt_iff, ltb]

/-- A value strictly between two others is finite. -/
theorem fin_of_between {a t b : CFloat K} (h1 : a < t) (h2 : t < b) : ∃ x, t = fin x := by
  cases t with
  | fin x => exact ⟨x, rfl⟩
  | pinf => cases b <;> simp [lt_iff, ltb] at h2
  | ninf => cases a <;> simp [lt_iff, ltb] at h1
  | nan => simp at h2

@[simp] theorem fin_add_fin (x y : K) : (fin x + fin y : CFloat K) = fin (x + y) := rfl

@[simp] theorem fin_sub_fin (x y : K) : (fin x - fin y : CFloat K) = fin (x - y) := by
  show add (fin x) (neg (fin y)) = fin (x - y)
  simp [add, neg, sub_eq_add_neg]

@[simp] theorem fin_mul_fin (x y : K) : (fin x * fin y : CFloat K) = fin (x * y) := rfl

@[simp] theorem neg_fin (x : K) : (-(fin x) : CFloat K) = fin (-x) := rfl

theorem fin_div_fin (x y : K) (hy : y ≠ 0) : (fin x / fin y : CFloat K) = fin (x / y) := by
  show div (fin x) (fin y) = fin (x / y)
  simp [div, hy]

@[simp] theorem fin_div_fin_eq (x y : K) :
    (fin x / fin y : CFloat K) =
      if y = 0 then (if x = 0 then nan else if 0 < x then pinf else ninf) else fin (x / y) :=
  rfl

@[simp] theorem add_nan (a : CFloat K) : a + nan = nan := by
  cases a <;> rfl

@[simp] theorem sub_nan (a : CFloat K) : a - nan = nan := by
  cases a <;> rfl

@[simp] theorem nan_div (a : CFloat K) : (nan : CFloat K) / a = nan := by
  cases a <;> rfl

@[simp] theorem sqrt_nan (env : Env K) : CFloat.sqrt env nan = nan := rfl

theorem sqrt_fin (env : Env K) (x : K) (hx : 0 ≤ x) :
    CFloat.sqrt env (fin x) = fin (env.sqrt x) := by
  simp [CFloat.sqrt, not_lt.2 hx]

theorem flt_trans {a b c : CFloat K} (h1 : a < b) (h2 : b < c) : a < c := by
  cases a <;> cases b <;> cases c <;> simp_all [lt_iff, ltb]
  exact lt_trans h1 h2

theorem fle_trans {a b c : CFloat K} (h1 : a ≤ b) (h2 : b ≤ c) : a ≤ c := by
  cases a <;> cases b <;> cases c <;> simp_all [le_iff, leb]
  exact le_trans h1 h2

theorem flt_of_flt_of_fle {a b c : CFloat K} (h1 : a < b) (h2 : b ≤ c) : a < c := by
  cases a <;> cases b <;> cases c <;> simp_all [lt_iff, le_iff, ltb, leb]
  exact lt_of_lt_of_le h1 h2

theorem fle_of_flt {a b : CFloat K} (h : a < b) : a ≤ b := by
  cases a <;> cases b <;> simp_all [lt_iff, le_iff, ltb, leb]
  exact le_of_lt h

/-- Two values that are not `NaN` are comparable. -/
theorem fle_of_not_flt {a b : CFloat K} (ha : a ≤ a) (hb : b ≤ b) (h : ¬ a < b) : b ≤ a := by
  cases a <;> cases b <;> simp_all [lt_iff, le_iff, ltb, leb]

theorem fle_self_of_flt_left {a b : CFloat K} (h : a < b) : a ≤ a := by
  cases a <;> cases b <;> simp_all [lt_iff, le_iff, ltb, leb]

theorem not_flt_of_fle {a b : CFloat K} (h : a ≤ b) : ¬ b < a := by
  cases a <;> cases b <;> simp_all [lt_iff, le_iff, ltb, leb]

end CFloat

/-! ## The nearest-hit search -/

/-- What one iteration of the search does to the running result: nothing, or it records
the sphere of this iteration with one of its two roots, a root that lies in the window and
below the distance recorded before. -/
theorem closest_loop_body_cases (env : Env K) (tmin tmax : CFloat K) (ro rd : Vector3 K)
    (acc : ray_closest_intersection_result K) (s : Sphere K) :
    closest_loop_body env tmin tmax ro rd acc s = acc ∨
    ((closest_loop_body env tmin tmax ro rd acc s).has_found = true ∧
      (closest_loop_body env tmin tmax ro rd acc s).closest_sphere = some s ∧
      (ray_sphere_intersection env s.center s.radius ro rd).is_intersecting = true ∧
      ((closest_loop_body env tmin tmax ro rd acc s).closest_t =
          (ray_sphere_intersection env s.center s.radius ro rd).intersections.x ∨
        (closest_loop_body env tmin tmax ro rd acc s).closest_t =
          (ray_sphere_intersection env s.center s.radius ro rd).intersections.y) ∧
      tmin < (closest_loop_body env tmin tmax ro rd acc s).closest_t ∧
      (closest_loop_body env tmin tmax ro rd acc s).closest_t < tmax ∧
      (closest_loop_body env tmin tmax ro rd acc s).closest_t < acc.closest_t) := by
  simp only [closest_loop_body, gt_iff_lt]
  split_ifs <;> simp_all
  rename_i hx hy
  exact Or.inr (flt_trans hy hx)

/-- Keeping the smaller of a recorded distance `c` and a candidate `t` that lies in the
window: the result is a number, at most `c`, and at most `t` when `t` lies in the window. -/
theorem keep_smaller_le (tmin tmax t c : CFloat K) (hc : c ≤ c) :
    (if tmin < t ∧ t < tmax then (if t < c then t else c) else c) ≤ c ∧
    (if tmin < t ∧ t < tmax then (if t < c then t else c) else c) ≤
      (if tmin < t ∧ t < tmax then (if t < c then t else c) else c) ∧
    (tmin < t → t < tmax →
      (if tmin < t ∧ t < tmax then (if t < c then t else c) else c) ≤ t) := by
  by_cases hw : tmin < t ∧ t < tmax
  · have ht : t ≤ t := fle_self_of_flt_left hw.2
    by_cases hlt : t < c
    · simp only [hw, hlt, and_self, if_true]
      exact ⟨fle_of_flt hlt, ht, fun _ _ => ht⟩
    · simp only [hw, hlt, and_self, if_true, if_false]
      exact ⟨hc, hc, fun _ _ => fle_of_not_flt ht hc hlt⟩
  · simp only [hw, if_false]
    exact ⟨hc, hc, fun h1 h2 => absurd ⟨h1, h2⟩ hw⟩

/-- The distance that one iteration of the search leaves, as a function of the distance
recorded before. -/
theorem closest_loop_body_closest_t (env : Env K) (tmin tmax : CFloat K) (ro rd : Vector3 K)
    (acc : ray_closest_intersection_result K) (s : Sphere K) :
    (closest_loop_body env tmin tmax ro rd acc s).closest_t =
      if (ray_sphere_intersection env s.center s.radius ro rd).is_intersecting = true then
        (if tmin < (ray_sphere_intersection env s.center s.radius ro rd).intersections.y ∧
            (ray_sphere_intersection env s.center s.radius ro rd).intersections.y < tmax then
          (if (ray_sphere_intersection env s.center s.radius ro rd).intersections.y <
              (if tmin < (ray_sphere_intersection env s.center s.radius ro rd).intersections.x ∧
                  (ray_sphere_intersection env s.center s.radius ro rd).intersections.x < tmax
                then
                  (if (ray_sphere_intersection env s.center s.radius ro rd).intersections.x <
                      acc.closest_t
                    then (ray_sphere_intersection env s.center s.radius ro rd).intersections.x
                    else acc.closest_t)
                else acc.closest_t)
            then (ray_sphere_intersection env s.center s.radius ro rd).intersections.y
            else
              (if tmin < (ray_sphere_intersection env s.center s.radius ro rd).intersections.x ∧
                  (ray_sphere_intersection env s.center s.radius ro rd).intersections.x < tmax
                then
                  (if (ray_sphere_intersection env s.center s.radius ro rd).intersections.x <
                      acc.closest_t
                    then (ray_sphere_intersection env s.center s.radius ro rd).intersections.x
                    else acc.closest_t)
                else acc.closest_t))
          else
            (if tmin < (ray_sphere_intersection env s.center s.radius ro rd).intersections.x ∧
                (ray_sphere_intersection env s.center s.radius ro rd).intersections.x < tmax
              then
                (if (ray_sphere_intersection env s.center s.radius ro rd).intersections.x <
                    acc.closest_t
                  then (ray_sphere_intersection env s.center s.radius ro rd).intersections.x
                  else acc.closest_t)
              else acc.closest_t))
      else acc.closest_t := by
  simp only [closest_loop_body, gt_iff_lt]
  split_ifs <;> rfl

/-- One iteration of the search leaves a distance that is at most the one recorded before
and at most every root of this sphere that lies in the window. -/
theorem closest_loop_body_le (env : Env K) (tmin tmax : CFloat K) (ro rd : Vector3 K)
    (acc : ray_closest_intersection_result K) (s : Sphere K)
    (hnum : acc.closest_t ≤ acc.closest_t) :
    (closest_loop_body env tmin tmax ro rd acc s).closest_t ≤ acc.closest_t ∧
    ((ray_sphere_intersection env s.center s.radius ro rd).is_intersecting = true →
      ∀ t, (t = (ray_sphere_intersection env s.center s.radius ro rd).intersections.x ∨
          t = (ray_sphere_intersection env s.center s.radius ro rd).intersections.y) →
        tmin < t → t < tmax → (closest_loop_body env tmin tmax ro rd acc s).closest_t ≤ t) := by
  rw [closest_loop_body_closest_t]
  generalize (ray_sphere_intersection env s.center s.radius ro rd).is_intersecting = hit
  generalize (ray_sphere_intersection env s.center s.radius ro rd).intersections.x = t1
  generalize (ray_sphere_intersection env s.center s.radius ro rd).intersections.y = t2
  generalize acc.closest_t = c at *
  have A := keep_smaller_le tmin tmax t1 c hnum
  have B := keep_smaller_le tmin tmax t2 _ A.2.1
  cases hit with
  | true =>
    simp only [if_true, true_implies]
    refine ⟨fle_trans B.1 A.1, ?_⟩
    rintro t (rfl | rfl) h1 h2
    · exact fle_trans B.1 (A.2.2 h1 h2)
    · exact B.2.2 h1 h2
  | false =>
    refine ⟨by simpa using hnum, fun h => ?_⟩
    simp at h

theorem ray_closest_intersection_append (env : Env K) (l : List (Sphere K)) (a : Sphere K)
    (tmin tmax : CFloat K) (ro rd : Vector3 K) :
    ray_closest_intersection env (l ++ [a]) tmin tmax ro rd =
      closest_loop_body env tmin tmax ro rd
        (ray_closest_intersection env l tmin tmax ro rd) a := by
  simp [ray_closest_intersection, List.foldl_append]

/-- The invariant of the search loop, stated for the whole list: while nothing is found
the distance is still `INFINITY` and no sphere is recorded; once something is found the
recorded sphere is in the list and the recorded distance is one of its two roots, inside
the window; and the recorded distance is at most every root in the window of every
sphere of the list that the ray intersects. -/
theorem ray_closest_intersection_invariant (env : Env K) (spheres : List (Sphere K))
    (tmin tmax : CFloat K) (ro rd : Vector3 K) :
    ((ray_closest_intersection env spheres tmin tmax ro rd).has_found = false →
      (ray_closest_intersection env spheres tmin tmax ro rd).closest_t = pinf ∧
      (ray_closest_intersection env spheres tmin tmax ro rd).closest_sphere = none) ∧
    ((ray_closest_intersection env spheres tmin tmax ro rd).has_found = true →
      ∃ s ∈ spheres,
        (ray_closest_intersection env spheres tmin tmax ro rd).closest_sphere = some s ∧
        (ray_sphere_intersection env s.center s.radius ro rd).is_intersecting = true ∧
        ((ray_closest_intersection env spheres tmin tmax ro rd).closest_t =
            (ray_sphere_intersection env s.center s.radius ro rd).intersections.x ∨
          (ray_closest_intersection env spheres tmin tmax ro rd).closest_t =
            (ray_sphere_intersection env s.center s.radius ro rd).intersections.y) ∧
        tmin < (ray_closest_intersection env spheres tmin tmax ro rd).closest_t ∧
        (ray_closest_intersection env spheres tmin tmax ro rd).closest_t < tmax) ∧
    (∀ s ∈ spheres,
      (ray_sphere_intersection env s.center s.radius ro rd).is_intersecting = true →
      ∀ t, (t = (ray_sphere_intersection env s.center s.radius ro rd).intersections.x ∨
          t = (ray_sphere_intersection env s.center s.radius ro rd).intersections.y) →
        tmin < t → t < tmax →
        (ray_closest_intersection env spheres tmin tmax ro rd).closest_t ≤ t) := by
  induction spheres using List.reverseRecOn with
  | nil => simp [ray_closest_intersection]
  | append_singleton l a ih =>
    rw [ray_closest_intersection_append]
    generalize ray_closest_intersection env l tmin tmax ro rd = acc at ih
    obtain ⟨ih1, ih2, ih3⟩ := ih
    have hnum : acc.closest_t ≤ acc.closest_t := by
      cases hf : acc.has_found with
      | false => rw [(ih1 hf).1]; simp [le_iff, leb]
      | true =>
        obtain ⟨s, -, -, -, -, -, hlt⟩ := ih2 hf
        exact fle_self_of_flt_left hlt
    have hle := closest_loop_body_le env tmin tmax ro rd acc a hnum
    rcases closest_loop_body_cases env tmin tmax ro rd acc a with heq | hnew
    · rw [heq] at hle ⊢
      refine ⟨ih1, fun hf => ?_, fun s hs hi t ht h1 h2 => ?_⟩
      · obtain ⟨s, hs, h⟩ := ih2 hf
        exact ⟨s, List.mem_append_left _ hs, h⟩
      · rcases List.mem_append.1 hs with hs | hs
        · exact ih3 s hs hi t ht h1 h2
        · rw [List.mem_singleton.1 hs] at hi ht
          exact hle.2 hi t ht h1 h2
    · obtain ⟨n1, n2, n3, n4, n5, n6, -⟩ := hnew
      refine ⟨fun hf => ?_, fun _ => ?_, fun s hs hi t ht h1 h2 => ?_⟩
      · rw [n1] at hf; cases hf
      · exact ⟨a, by simp, n2, n3, n4, n5, n6⟩
      · rcases List.mem_append.1 hs with hs | hs
        · exact fle_trans hle.1 (ih3 s hs hi t ht h1 h2)
        · rw [List.mem_singleton.1 hs] at hi ht
          exact hle.2 hi t ht h1 h2

/-! ## The intersection of a ray and a sphere -/

theorem ray_sphere_intersection_miss (env : Env K) (so : Vector3 K) (sr : CFloat K)
    (ro rd : Vector3 K) (h : discriminant so sr ro rd < fin 0) :
    ray_sphere_intersection env so sr ro rd = ⟨false, ⟨fin (-1), fin (-1)⟩⟩ := by
  simp [ray_sphere_intersection, h]

theorem ray_sphere_intersection_hit (env : Env K) (so : Vector3 K) (sr : CFloat K)
    (ro rd : Vector3 K) (h : ¬ discriminant so sr ro rd < fin 0) :
    ray_sphere_intersection env so sr ro rd =
      ⟨true,
        ⟨(-(fin 2 * Vector3DotProduct (Vector3Subtract ro so) rd) +
            CFloat.sqrt env (discriminant so sr ro rd)) / (fin 2 * Vector3DotProduct rd rd),
         (-(fin 2 * Vector3DotProduct (Vector3Subtract ro so) rd) -
            CFloat.sqrt env (discriminant so sr ro rd)) / (fin 2 * Vector3DotProduct rd rd)⟩⟩ := by
  simp [ray_sphere_intersection, h]

/-- A root that lies in a window comes from a discriminant that is `>= 0`: a `NaN`
discriminant gives `NaN` roots, which lie in no window. -/
theorem discriminant_nonneg_of_root_between (env : Env K) (so : Vector3 K) (sr : CFloat K)
    (ro rd : Vector3 K) (b t : CFloat K)
    (hi : (ray_sphere_intersection env so sr ro rd).is_intersecting = true)
    (ht : t = (ray_sphere_intersection env so sr ro rd).intersections.x ∨
      t = (ray_sphere_intersection env so sr ro rd).intersections.y)
    (h2 : t < b) : fin 0 ≤ discriminant so sr ro rd := by
  by_cases hd : discriminant so sr ro rd < fin 0
  · rw [ray_sphere_intersection_miss env so sr ro rd hd] at hi
    cases hi
  · rw [ray_sphere_intersection_hit env so sr ro rd hd] at ht
    cases hD : discriminant so sr ro rd with
    | fin d =>
      rw [hD] at hd
      simpa using hd
    | pinf => simp [le_iff, leb]
    | ninf => rw [hD] at hd; simp [lt_iff, ltb] at hd
    | nan =>
      rw [hD] at ht
      simp at ht
      rw [ht] at h2
      simp at h2

/-- Claim C1. Whenever `ray_closest_intersection` returns `has_found = true`, the returned
`closest_t` lies strictly inside the window: `tmin < closest_t` and `closest_t < tmax`. -/
theorem closest_t_strictly_inside_window (env : Env K) (spheres : List (Sphere K))
    (tmin tmax : CFloat K) (ro rd : Vector3 K)
    (h : (ray_closest_intersection env spheres tmin tmax ro rd).has_found = true) :
    tmin < (ray_closest_intersection env spheres tmin tmax ro rd).closest_t ∧
    (ray_closest_intersection env spheres tmin tmax ro rd).closest_t < tmax := by
  obtain ⟨s, -, -, -, -, h1, h2⟩ :=
    (ray_closest_intersection_invariant env spheres tmin tmax ro rd).2.1 h
  exact ⟨h1, h2⟩

/-- Claim C2. Whenever `ray_closest_intersection` returns `has_found = true`, the returned
`closest_sphere` is an element of the list, `closest_t` is one of the two roots that
`ray_sphere_intersection` gives for that sphere, and `closest_t <= t` for every root `t`
of every sphere of the list with discriminant `>= 0` and `tmin < t < tmax`. -/
theorem closest_t_is_global_minimum (env : Env K) (spheres : List (Sphere K))
    (tmin tmax : CFloat K) (ro rd : Vector3 K)
    (h : (ray_closest_intersection env spheres tmin tmax ro rd).has_found = true) :
    (∃ s ∈ spheres,
      (ray_closest_intersection env spheres tmin tmax ro rd).closest_sphere = some s ∧
      ((ray_closest_intersection env spheres tmin tmax ro rd).closest_t =
          (ray_sphere_intersection env s.center s.radius ro rd).intersections.x ∨
        (ray_closest_intersection env spheres tmin tmax ro rd).closest_t =
          (ray_sphere_intersection env s.center s.radius ro rd).intersections.y)) ∧
    (∀ s ∈ spheres, fin 0 ≤ discriminant s.center s.radius ro rd →
      ∀ t, (t = (ray_sphere_intersection env s.center s.radius ro rd).intersections.x ∨
          t = (ray_sphere_intersection env s.center s.radius ro rd).intersections.y) →
        tmin < t → t < tmax →
        (ray_closest_intersection env spheres tmin tmax ro rd).closest_t ≤ t) := by
  obtain ⟨-, inv2, inv3⟩ := ray_closest_intersection_invariant env spheres tmin tmax ro rd
  obtain ⟨s, hs, hsome, -, hroot, -, -⟩ := inv2 h
  refine ⟨⟨s, hs, hsome, hroot⟩, fun s' hs' hd t ht h1 h2 => ?_⟩
  refine inv3 s' hs' ?_ t ht h1 h2
  rw [ray_sphere_intersection_hit env _ _ _ _ (not_flt_of_fle hd)]

/-- Claim C3. `ray_closest_intersection` returns `has_found = true` if and only if some
sphere of the list has discriminant `>= 0` and a root strictly inside `(tmin, tmax)`.
In particular a list made only of spheres that the ray misses (discriminant `< 0`, roots
set to the sentinel `-1`), the empty list included, gives `has_found = false`, whatever
the window is. -/
theorem has_found_iff_some_root_in_window (env : Env K) (spheres : List (Sphere K))
    (tmin tmax : CFloat K) (ro rd : Vector3 K) :
    ((ray_closest_intersection env spheres tmin tmax ro rd).has_found = true ↔
      ∃ s ∈ spheres, fin 0 ≤ discriminant s.center s.radius ro rd ∧
        ∃ t, (t = (ray_sphere_intersection env s.center s.radius ro rd).intersections.x ∨
            t = (ray_sphere_intersection env s.center s.radius ro rd).intersections.y) ∧
          tmin < t ∧ t < tmax) ∧
    ((∀ s ∈ spheres, discriminant s.center s.radius ro rd < fin 0) →
      (ray_closest_intersection env spheres tmin tmax ro rd).has_found = false) := by
  obtain ⟨inv1, inv2, inv3⟩ := ray_closest_intersection_invariant env spheres tmin tmax ro rd
  have key : (ray_closest_intersection env spheres tmin tmax ro rd).has_found = true ↔
      ∃ s ∈ spheres, fin 0 ≤ discriminant s.center s.radius ro rd ∧
        ∃ t, (t = (ray_sphere_intersection env s.center s.radius ro rd).intersections.x ∨
            t = (ray_sphere_intersection env s.center s.radius ro rd).intersections.y) ∧
          tmin < t ∧ t < tmax := by
    constructor
    · intro h
      obtain ⟨s, hs, -, hi, hroot, h1, h2⟩ := inv2 h
      exact ⟨s, hs, discriminant_nonneg_of_root_between env _ _ _ _ _ _ hi hroot h2,
        _, hroot, h1, h2⟩
    · rintro ⟨s, hs, hd, t, ht, h1, h2⟩
      have hi : (ray_sphere_intersection env s.center s.radius ro rd).is_intersecting
          = true := by
        rw [ray_sphere_intersection_hit env _ _ _ _ (not_flt_of_fle hd)]
      have hle := inv3 s hs hi t ht h1 h2
      cases hf : (ray_closest_intersection env spheres tmin tmax ro rd).has_found with
      | true => rfl
      | false =>
        obtain ⟨x, rfl⟩ := fin_of_between h1 h2
        rw [(inv1 hf).1] at hle
        simp [le_iff, leb] at hle
  refine ⟨key, fun hall => ?_⟩
  cases hf : (ray_closest_intersection env spheres tmin tmax ro rd).has_found with
  | false => rfl
  | true =>
    obtain ⟨s, hs, hd, -⟩ := key.1 hf
    exact absurd (hall s hs) (not_flt_of_fle hd)

/-- Claim C4. When the discriminant `b*b - 4*a*c` is `< 0`, with `a = rd.rd`,
`b = 2*((ro - so).rd)` and `c = (ro - so).(ro - so) - sr*sr`, `ray_sphere_intersection`
returns `is_intersecting = false` and both roots equal to `-1`. -/
theorem negative_discriminant_gives_sentinel (env : Env K) (so : Vector3 K) (sr : CFloat K)
    (ro rd : Vector3 K)
    (h : (fin 2 * Vector3DotProduct (Vector3Subtract ro so) rd) *
          (fin 2 * Vector3DotProduct (Vector3Subtract ro so) rd) -
        fin 4 * Vector3DotProduct rd rd *
          (Vector3DotProduct (Vector3Subtract ro so) (Vector3Subtract ro so) - sr * sr)
        < fin 0) :
    (ray_sphere_intersection env so sr ro rd).is_intersecting = false ∧
    (ray_sphere_intersection env so sr ro rd).intersections.x = fin (-1) ∧
    (ray_sphere_intersection env so sr ro rd).intersections.y = fin (-1) := by
  rw [ray_sphere_intersection_miss env so sr ro rd h]
  exact ⟨rfl, rfl, rfl⟩

/-! ## The spec's scenario, evaluated -/

/-- The square root of the rational environment is exact at `4`. -/
theorem ratEnv_sqrt_four : ratEnv.sqrt 4 = 2 := by
  simp [ratEnv]
  norm_num

/-- The square root of the rational environment is exact at `1`. -/
theorem ratEnv_sqrt_one : ratEnv.sqrt 1 = 1 := by
  simp [ratEnv]

/-- The ray of the scenario meets the sphere of the scenario at `t = 4` and `t = 2`. -/
theorem scenario_roots (env : Env K) (h4 : env.sqrt 4 = 2) (reflective : K) :
    ray_sphere_intersection env (scenarioSphere reflective).center
      (scenarioSphere reflective).radius scenarioOrigin scenarioDirection =
      ⟨true, ⟨fin 4, fin 2⟩⟩ := by
  simp [ray_sphere_intersection, discriminant, Vector3DotProduct, Vector3Subtract,
    CFloat.sqrt, scenarioOrigin, scenarioDirection, scenarioSphere]
  norm_num [h4]

/-- The nearest hit of the scenario in the window `(1, INFINITY)` is at `t = 2`. -/
theorem scenario_closest (env : Env K) (h4 : env.sqrt 4 = 2) (reflective : K) :
    ray_closest_intersection env [scenarioSphere reflective] (fin 1) pinf
      scenarioOrigin scenarioDirection =
      ⟨true, some (scenarioSphere reflective), fin 2⟩ := by
  simp [ray_closest_intersection, closest_loop_body, scenario_roots env h4, lt_iff, ltb]
  norm_num

/-- Witness for claim C1: the scenario of the spec, searched in the window `(1, INFINITY)`
that `main` uses, finds a sphere, and the distance found lies in the window. -/
theorem closest_t_strictly_inside_window_witness :
    (ray_closest_intersection ratEnv [scenarioSphere 0] (fin 1) pinf
      scenarioOrigin scenarioDirection).has_found = true ∧
    (fin 1 < (ray_closest_intersection ratEnv [scenarioSphere 0] (fin 1) pinf
        scenarioOrigin scenarioDirection).closest_t ∧
      (ray_closest_intersection ratEnv [scenarioSphere 0] (fin 1) pinf
        scenarioOrigin scenarioDirection).closest_t < pinf) :=
  ⟨by rw [scenario_closest ratEnv ratEnv_sqrt_four],
    closest_t_strictly_inside_window ratEnv [scenarioSphere 0] (fin 1) pinf
      scenarioOrigin scenarioDirection (by rw [scenario_closest ratEnv ratEnv_sqrt_four])⟩

/-- The ray of the scenario meets the far sphere at `t = 8` and `t = 6`. -/
theorem farSphere_roots :
    ray_sphere_intersection ratEnv farSphere.center farSphere.radius
      scenarioOrigin scenarioDirection = ⟨true, ⟨fin 8, fin 6⟩⟩ := by
  simp [ray_sphere_intersection, discriminant, Vector3DotProduct, Vector3Subtract,
    CFloat.sqrt, scenarioOrigin, scenarioDirection, farSphere, ratEnv]
  norm_num

/-- With the far sphere first in the list, the search still ends on the sphere of the
scenario, at `t = 2`. -/
theorem two_spheres_closest :
    ray_closest_intersection ratEnv [farSphere, scenarioSphere 0] (fin 1) pinf
      scenarioOrigin scenarioDirection = ⟨true, some (scenarioSphere 0), fin 2⟩ := by
  simp [ray_closest_intersection, closest_loop_body,
    scenario_roots ratEnv ratEnv_sqrt_four, farSphere_roots, lt_iff, ltb]
  norm_num

/-- Witness for claim C2: a list of two spheres that the ray both intersects. -/
theorem closest_t_is_global_minimum_witness :
    (ray_closest_intersection ratEnv [farSphere, scenarioSphere 0] (fin 1) pinf
      scenarioOrigin scenarioDirection).has_found = true ∧
    ((∃ s ∈ [farSphere, scenarioSphere 0],
      (ray_closest_intersection ratEnv [farSphere, scenarioSphere 0] (fin 1) pinf
        scenarioOrigin scenarioDirection).closest_sphere = some s ∧
      ((ray_closest_intersection ratEnv [farSphere, scenarioSphere 0] (fin 1) pinf
          scenarioOrigin scenarioDirection).closest_t =
          (ray_sphere_intersection ratEnv s.center s.radius
            scenarioOrigin scenarioDirection).intersections.x ∨
        (ray_closest_intersection ratEnv [farSphere, scenarioSphere 0] (fin 1) pinf
          scenarioOrigin scenarioDirection).closest_t =
          (ray_sphere_intersection ratEnv s.center s.radius
            scenarioOrigin scenarioDirection).intersections.y)) ∧
    (∀ s ∈ [farSphere, scenarioSphere 0],
      fin 0 ≤ discriminant s.center s.radius scenarioOrigin scenarioDirection →
      ∀ t, (t = (ray_sphere_intersection ratEnv s.center s.radius
              scenarioOrigin scenarioDirection).intersections.x ∨
          t = (ray_sphere_intersection ratEnv s.center s.radius
              scenarioOrigin scenarioDirection).intersections.y) →
        fin 1 < t → t < pinf →
        (ray_closest_intersection ratEnv [farSphere, scenarioSphere 0] (fin 1) pinf
          scenarioOrigin scenarioDirection).closest_t ≤ t)) :=
  ⟨by rw [two_spheres_closest],
    closest_t_is_global_minimum ratEnv [farSphere, scenarioSphere 0] (fin 1) pinf
      scenarioOrigin scenarioDirection (by rw [two_spheres_closest])⟩

/-- The discriminant of the missed sphere is `-96`. -/
theorem missedSphere_discriminant :
    discriminant missedSphere.center missedSphere.radius scenarioOrigin scenarioDirection =
      fin (-96) := by
  simp [discriminant, Vector3DotProduct, Vector3Subtract, scenarioOrigin,
    scenarioDirection, missedSphere]
  norm_num

/-- Witness for claim C3: only a missed sphere in the list, and a window `(-2, INFINITY)`
that contains the sentinel `-1`: nothing is found. -/
theorem has_found_iff_some_root_in_window_witness :
    (∀ s ∈ [missedSphere],
      discriminant s.center s.radius scenarioOrigin scenarioDirection < fin 0) ∧
    (ray_closest_intersection ratEnv [missedSphere] (fin (-2)) pinf
      scenarioOrigin scenarioDirection).has_found = false :=
  have h : ∀ s ∈ [missedSphere],
      discriminant s.center s.radius scenarioOrigin scenarioDirection < fin 0 := by
    intro s hs
    rw [List.mem_singleton.1 hs, missedSphere_discriminant]
    simp
  ⟨h, (has_found_iff_some_root_in_window ratEnv [missedSphere] (fin (-2)) pinf
    scenarioOrigin scenarioDirection).2 h⟩

/-- Witness for claim C4: the scenario's ray and the missed sphere, discriminant `-96`. -/
theorem negative_discriminant_gives_sentinel_witness :
    discriminant missedSphere.center missedSphere.radius scenarioOrigin scenarioDirection
      < fin 0 ∧
    ((ray_sphere_intersection ratEnv missedSphere.center missedSphere.radius
      scenarioOrigin scenarioDirection).is_intersecting = false ∧
    (ray_sphere_intersection ratEnv missedSphere.center missedSphere.radius
      scenarioOrigin scenarioDirection).intersections.x = fin (-1) ∧
    (ray_sphere_intersection ratEnv missedSphere.center missedSphere.radius
      scenarioOrigin scenarioDirection).intersections.y = fin (-1)) :=
  have h : discriminant missedSphere.center missedSphere.radius scenarioOrigin
      scenarioDirection < fin 0 := by
    rw [missedSphere_discriminant]
    simp
  ⟨h, negative_discriminant_gives_sentinel ratEnv missedSphere.center missedSphere.radius
    scenarioOrigin scenarioDirection h⟩

/-! ## The roots -/

/-- The sum of the squares of the components of a non-zero vector is positive. -/
theorem sum_squares_pos (x y z : K) (h : ¬ (x = 0 ∧ y = 0 ∧ z = 0)) :
    0 < x * x + y * y + z * z := by
  rcases lt_or_eq_of_le (add_nonneg (add_nonneg (mul_self_nonneg x) (mul_self_nonneg y))
    (mul_self_nonneg z)) with hpos | hzero
  · exact hpos
  · exfalso
    apply h
    have hx := mul_self_nonneg x
    have hy := mul_self_nonneg y
    have hz := mul_self_nonneg z
    refine ⟨mul_self_eq_zero.1 (by linarith), mul_self_eq_zero.1 (by linarith),
      mul_self_eq_zero.1 (by linarith)⟩

/-- On finite arguments the discriminant is finite, with the value `b*b - 4*a*c`. -/
theorem discriminant_fin (sox soy soz sr rox roy roz rdx rdy rdz : K) :
    discriminant ⟨fin sox, fin soy, fin soz⟩ (fin sr) ⟨fin rox, fin roy, fin roz⟩
        ⟨fin rdx, fin rdy, fin rdz⟩ =
      fin ((2 * ((rox - sox) * rdx + (roy - soy) * rdy + (roz - soz) * rdz)) *
          (2 * ((rox - sox) * rdx + (roy - soy) * rdy + (roz - soz) * rdz)) -
        4 * (rdx * rdx + rdy * rdy + rdz * rdz) *
          ((rox - sox) * (rox - sox) + (roy - soy) * (roy - soy) + (roz - soz) * (roz - soz)
            - sr * sr)) := by
  simp [discriminant, Vector3DotProduct, Vector3Subtract]

/-- On finite arguments with a non-zero direction and a discriminant `D >= 0`, the two
roots are the finite values `(-b + sqrt D) / (2*a)` and `(-b - sqrt D) / (2*a)`. -/
theorem ray_sphere_intersection_fin (env : Env K)
    (sox soy soz sr rox roy roz rdx rdy rdz : K)
    (hrd : ¬ (rdx = 0 ∧ rdy = 0 ∧ rdz = 0))
    (hD : 0 ≤ (2 * ((rox - sox) * rdx + (roy - soy) * rdy + (roz - soz) * rdz)) *
          (2 * ((rox - sox) * rdx + (roy - soy) * rdy + (roz - soz) * rdz)) -
        4 * (rdx * rdx + rdy * rdy + rdz * rdz) *
          ((rox - sox) * (rox - sox) + (roy - soy) * (roy - soy) + (roz - soz) * (roz - soz)
            - sr * sr)) :
    ray_sphere_intersection env ⟨fin sox, fin soy, fin soz⟩ (fin sr)
        ⟨fin rox, fin roy, fin roz⟩ ⟨fin rdx, fin rdy, fin rdz⟩ =
      ⟨true,
        ⟨fin ((-(2 * ((rox - sox) * rdx + (roy - soy) * rdy + (roz - soz) * rdz)) +
            env.sqrt ((2 * ((rox - sox) * rdx + (roy - soy) * rdy + (roz - soz) * rdz)) *
                (2 * ((rox - sox) * rdx + (roy - soy) * rdy + (roz - soz) * rdz)) -
              4 * (rdx * rdx + rdy * rdy + rdz * rdz) *
                ((rox - sox) * (rox - sox) + (roy - soy) * (roy - soy) +
                  (roz - soz) * (roz - soz) - sr * sr))) /
            (2 * (rdx * rdx + rdy * rdy + rdz * rdz))),
         fin ((-(2 * ((rox - sox) * rdx + (roy - soy) * rdy + (roz - soz) * rdz)) -
            env.sqrt ((2 * ((rox - sox) * rdx + (roy - soy) * rdy + (roz - soz) * rdz)) *
                (2 * ((rox - sox) * rdx + (roy - soy) * rdy + (roz - soz) * rdz)) -
              4 * (rdx * rdx + rdy * rdy + rdz * rdz) *
                ((rox - sox) * (rox - sox) + (roy - soy) * (roy - soy) +
                  (roz - soz) * (roz - soz) - sr * sr))) /
            (2 * (rdx * rdx + rdy * rdy + rdz * rdz)))⟩⟩ := by
  have ha := sum_squares_pos rdx rdy rdz hrd
  have h2a : 2 * (rdx * rdx + rdy * rdy + rdz * rdz) ≠ 0 := by positivity
  rw [ray_sphere_intersection_hit, discriminant_fin, sqrt_fin env _ hD]
  · simp [Vector3DotProduct, Vector3Subtract, h2a]
  · rw [discriminant_fin]
    simpa using hD

/-- Both values `(-b + r) / (2*a)` and `(-b - r) / (2*a)` with `r*r = b*b - 4*a*c` solve
`a*t*t + b*t + c = 0`. -/
theorem quadratic_formula_root (a b c r t : K) (ha : a ≠ 0) (hr : r * r = b * b - 4 * a * c)
    (ht : t = (-b + r) / (2 * a) ∨ t = (-b - r) / (2 * a)) :
    a * (t * t) + b * t + c = 0 := by
  have h4a : 4 * a ≠ 0 := mul_ne_zero (by norm_num) ha
  have key : 4 * a * (a * (t * t) + b * t + c) = 0 := by
    rcases ht with ht | ht
    · have h1 : 2 * a * t = -b + r := by rw [ht]; field_simp
      linear_combination (2 * a * t + (-b + r) + 2 * b) * h1 + hr
    · have h1 : 2 * a * t = -b - r := by rw [ht]; field_simp
      linear_combination (2 * a * t + (-b - r) + 2 * b) * h1 + hr
  exact (mul_eq_zero.1 key).resolve_left h4a

/-- Claim C5. For a finite sphere and a finite ray with non-zero direction and
discriminant `>= 0` (and a `sqrt` that returns a square root of that discriminant),
`ray_sphere_intersection` returns `is_intersecting = true` with two finite roots, and
each root `t` solves `a*t*t + b*t + c = 0` for the `a`, `b`, `c` of the code, that is
the point `ro + t*rd` lies on the sphere: `(ro + t*rd - so).(ro + t*rd - so) = sr*sr`. -/
theorem roots_solve_quadratic (env : Env K) (sox soy soz sr rox roy roz rdx rdy rdz : K)
    (hrd : ¬ (rdx = 0 ∧ rdy = 0 ∧ rdz = 0))
    (hdisc : fin 0 ≤ discriminant ⟨fin sox, fin soy, fin soz⟩ (fin sr)
      ⟨fin rox, fin roy, fin roz⟩ ⟨fin rdx, fin rdy, fin rdz⟩)
    (hsqrt : ∀ d, discriminant ⟨fin sox, fin soy, fin soz⟩ (fin sr)
      ⟨fin rox, fin roy, fin roz⟩ ⟨fin rdx, fin rdy, fin rdz⟩ = fin d →
      env.sqrt d * env.sqrt d = d) :
    ∃ t1 t2 : K,
      ray_sphere_intersection env ⟨fin sox, fin soy, fin soz⟩ (fin sr)
        ⟨fin rox, fin roy, fin roz⟩ ⟨fin rdx, fin rdy, fin rdz⟩ =
          ⟨true, ⟨fin t1, fin t2⟩⟩ ∧
      ∀ t, (t = t1 ∨ t = t2) →
        Vector3DotProduct ⟨fin rdx, fin rdy, fin rdz⟩ ⟨fin rdx, fin rdy, fin rdz⟩ *
            (fin t * fin t) +
          fin 2 * Vector3DotProduct
              (Vector3Subtract ⟨fin rox, fin roy, fin roz⟩ ⟨fin sox, fin soy, fin soz⟩)
              ⟨fin rdx, fin rdy, fin rdz⟩ * fin t +
          (Vector3DotProduct
              (Vector3Subtract ⟨fin rox, fin roy, fin roz⟩ ⟨fin sox, fin soy, fin soz⟩)
              (Vector3Subtract ⟨fin rox, fin roy, fin roz⟩ ⟨fin sox, fin soy, fin soz⟩) -
            fin sr * fin sr) = fin 0 ∧
        Vector3DotProduct
          (Vector3Subtract
            (Vector3Add ⟨fin rox, fin roy, fin roz⟩
              (Vector3Scale ⟨fin rdx, fin rdy, fin rdz⟩ (fin t)))
            ⟨fin sox, fin soy, fin soz⟩)
          (Vector3Subtract
            (Vector3Add ⟨fin rox, fin roy, fin roz⟩
              (Vector3Scale ⟨fin rdx, fin rdy, fin rdz⟩ (fin t)))
            ⟨fin sox, fin soy, fin soz⟩) = fin sr * fin sr := by
  have ha := sum_squares_pos rdx rdy rdz hrd
  have hr := hsqrt _ (discriminant_fin sox soy soz sr rox roy roz rdx rdy rdz)
  rw [discriminant_fin] at hdisc
  have hD := (fin_le_fin _ _).1 hdisc
  refine ⟨_, _, ray_sphere_intersection_fin env sox soy soz sr rox roy roz rdx rdy rdz
    hrd hD, fun t ht => ?_⟩
  have hq := quadratic_formula_root (rdx * rdx + rdy * rdy + rdz * rdz)
    (2 * ((rox - sox) * rdx + (roy - soy) * rdy + (roz - soz) * rdz))
    ((rox - sox) * (rox - sox) + (roy - soy) * (roy - soy) + (roz - soz) * (roz - soz)
      - sr * sr) _ t (ne_of_gt ha) hr ht
  constructor
  · simp only [Vector3DotProduct, Vector3Subtract, fin_mul_fin, fin_add_fin, fin_sub_fin]
    rw [← hq]
  · simp only [Vector3DotProduct, Vector3Subtract, Vector3Add, Vector3Scale, fin_mul_fin,
      fin_add_fin, fin_sub_fin, fin.injEq]
    linear_combination hq

/-- Witness for claim C5: the sphere and the ray of the spec's scenario, whose
discriminant is `4`. -/
theorem roots_solve_quadratic_witness :
    ∃ t1 t2 : ℚ,
      ray_sphere_intersection ratEnv ⟨fin 0, fin 0, fin 3⟩ (fin 1)
        ⟨fin 0, fin 0, fin 0⟩ ⟨fin 0, fin 0, fin 1⟩ = ⟨true, ⟨fin t1, fin t2⟩⟩ ∧
      ∀ t, (t = t1 ∨ t = t2) →
        Vector3DotProduct ⟨fin 0, fin 0, fin 1⟩ ⟨fin 0, fin 0, fin 1⟩ * (fin t * fin t) +
          fin 2 * Vector3DotProduct
              (Vector3Subtract ⟨fin 0, fin 0, fin 0⟩ ⟨fin 0, fin 0, fin 3⟩)
              ⟨fin 0, fin 0, fin 1⟩ * fin t +
          (Vector3DotProduct
              (Vector3Subtract ⟨fin 0, fin 0, fin 0⟩ ⟨fin 0, fin 0, fin 3⟩)
              (Vector3Subtract ⟨fin 0, fin 0, fin 0⟩ ⟨fin 0, fin 0, fin 3⟩) -
            fin 1 * fin 1) = fin 0 ∧
        Vector3DotProduct
          (Vector3Subtract
            (Vector3Add ⟨fin 0, fin 0, fin 0⟩ (Vector3Scale ⟨fin 0, fin 0, fin 1⟩ (fin t)))
            ⟨fin 0, fin 0, fin 3⟩)
          (Vector3Subtract
            (Vector3Add ⟨fin 0, fin 0, fin 0⟩ (Vector3Scale ⟨fin 0, fin 0, fin 1⟩ (fin t)))
            ⟨fin 0, fin 0, fin 3⟩) = fin 1 * fin 1 :=
  roots_solve_quadratic ratEnv 0 0 3 1 0 0 0 0 0 1 (by norm_num)
    (by rw [discriminant_fin]; norm_num)
    (by
      intro d hd
      rw [discriminant_fin] at hd
      have hd4 : d = 4 := by
        have := fin.inj hd
        rw [← this]
        norm_num
      subst hd4
      simp [ratEnv]
      norm_num)

/-- Claim C6. For a finite ray with non-zero direction that passes through the centre
`so = ro + s*rd` of a sphere, `ray_sphere_intersection` finds two roots `t1`, `t2` with
`t1 + t2 = 2*s`. -/
theorem roots_symmetric_about_centre (env : Env K) (rox roy roz rdx rdy rdz sr s : K)
    (hrd : ¬ (rdx = 0 ∧ rdy = 0 ∧ rdz = 0)) :
    (ray_sphere_intersection env
        ⟨fin (rox + s * rdx), fin (roy + s * rdy), fin (roz + s * rdz)⟩ (fin sr)
        ⟨fin rox, fin roy, fin roz⟩ ⟨fin rdx, fin rdy, fin rdz⟩).is_intersecting = true ∧
    (ray_sphere_intersection env
        ⟨fin (rox + s * rdx), fin (roy + s * rdy), fin (roz + s * rdz)⟩ (fin sr)
        ⟨fin rox, fin roy, fin roz⟩ ⟨fin rdx, fin rdy, fin rdz⟩).intersections.x +
      (ray_sphere_intersection env
        ⟨fin (rox + s * rdx), fin (roy + s * rdy), fin (roz + s * rdz)⟩ (fin sr)
        ⟨fin rox, fin roy, fin roz⟩ ⟨fin rdx, fin rdy, fin rdz⟩).intersections.y =
      fin (2 * s) := by
  have ha := sum_squares_pos rdx rdy rdz hrd
  have hD : 0 ≤ (2 * ((rox - (rox + s * rdx)) * rdx + (roy - (roy + s * rdy)) * rdy +
            (roz - (roz + s * rdz)) * rdz)) *
          (2 * ((rox - (rox + s * rdx)) * rdx + (roy - (roy + s * rdy)) * rdy +
            (roz - (roz + s * rdz)) * rdz)) -
        4 * (rdx * rdx + rdy * rdy + rdz * rdz) *
          ((rox - (rox + s * rdx)) * (rox - (rox + s * rdx)) +
            (roy - (roy + s * rdy)) * (roy - (roy + s * rdy)) +
            (roz - (roz + s * rdz)) * (roz - (roz + s * rdz)) - sr * sr) := by
    have e : (2 * ((rox - (rox + s * rdx)) * rdx + (roy - (roy + s * rdy)) * rdy +
            (roz - (roz + s * rdz)) * rdz)) *
          (2 * ((rox - (rox + s * rdx)) * rdx + (roy - (roy + s * rdy)) * rdy +
            (roz - (roz + s * rdz)) * rdz)) -
        4 * (rdx * rdx + rdy * rdy + rdz * rdz) *
          ((rox - (rox + s * rdx)) * (rox - (rox + s * rdx)) +
            (roy - (roy + s * rdy)) * (roy - (roy + s * rdy)) +
            (roz - (roz + s * rdz)) * (roz - (roz + s * rdz)) - sr * sr) =
        4 * (rdx * rdx + rdy * rdy + rdz * rdz) * (sr * sr) := by ring
    rw [e]
    exact mul_nonneg (mul_nonneg (by norm_num) (le_of_lt ha)) (mul_self_nonneg sr)
  rw [ray_sphere_intersection_fin env _ _ _ sr rox roy roz rdx rdy rdz hrd hD]
  refine ⟨rfl, ?_⟩
  simp only [fin_add_fin, fin.injEq]
  field_simp
  ring

/-- Witness for claim C6: the ray of the spec's scenario passes through the centre
`(0,0,3)` of its sphere, with `s = 3`; the roots `4` and `2` add up to `6`. -/
theorem roots_symmetric_about_centre_witness :
    (ray_sphere_intersection ratEnv
        ⟨fin (0 + 3 * 0), fin (0 + 3 * 0), fin (0 + 3 * 1)⟩ (fin 1)
        ⟨fin 0, fin 0, fin 0⟩ ⟨fin 0, fin 0, fin 1⟩).is_intersecting = true ∧
    (ray_sphere_intersection ratEnv
        ⟨fin (0 + 3 * 0), fin (0 + 3 * 0), fin (0 + 3 * 1)⟩ (fin 1)
        ⟨fin 0, fin 0, fin 0⟩ ⟨fin 0, fin 0, fin 1⟩).intersections.x +
      (ray_sphere_intersection ratEnv
        ⟨fin (0 + 3 * 0), fin (0 + 3 * 0), fin (0 + 3 * 1)⟩ (fin 1)
        ⟨fin 0, fin 0, fin 0⟩ ⟨fin 0, fin 0, fin 1⟩).intersections.y =
      fin (2 * 3) :=
  roots_symmetric_about_centre ratEnv 0 0 0 0 0 1 1 3 (by norm_num)

/-! ## Tracing -/

section Tracing

variable [FloorRing K]

/-- Claim C7. With an empty sphere collection `trace_ray` returns the background colour
`(24, 1, 97, 255)`, whatever the lights, the ray, the camera, the window and the
recursion depth are. -/
theorem trace_ray_empty_scene (env : Env K) (lights : List (light K))
    (ro rd cam_pos : Vector3 K) (tmin tmax : CFloat K) (recursion_depth : Int) :
    trace_ray env [] lights ro rd cam_pos tmin tmax recursion_depth =
      .ok ⟨24, 1, 97, 255⟩ := by
  rw [trace_ray]
  simp [ray_closest_intersection, background]

/-- With a recursion depth `<= 0`, `trace_ray` is the search, the lighting and the
conversion of the lit colour, and nothing else. -/
theorem trace_ray_of_depth_nonpos (env : Env K) (spheres : List (Sphere K))
    (lights : List (light K)) (ro rd cam_pos : Vector3 K) (tmin tmax : CFloat K)
    (recursion_depth : Int) (hd : recursion_depth ≤ 0) :
    trace_ray env spheres lights ro rd cam_pos tmin tmax recursion_depth =
      if (ray_closest_intersection env spheres tmin tmax ro rd).has_found = true then
        match (ray_closest_intersection env spheres tmin tmax ro rd).closest_sphere with
        | none => .error .uninitialised_read
        | some closestSphere =>
          compute_light env spheres tmax lights
            (Vector3Add ro (Vector3Scale rd
              (ray_closest_intersection env spheres tmin tmax ro rd).closest_t))
            (Vector3Normalize env (Vector3Subtract
              (Vector3Add ro (Vector3Scale rd
                (ray_closest_intersection env spheres tmin tmax ro rd).closest_t))
              closestSphere.center))
            (Vector3Subtract cam_pos (Vector3Add ro (Vector3Scale rd
              (ray_closest_intersection env spheres tmin tmax ro rd).closest_t)))
            closestSphere.specular >>= fun light_intensity =>
          mkColor
            (Clamp (ofUChar closestSphere.color.r * light_intensity) (fin 0) (fin 255))
            (Clamp (ofUChar closestSphere.color.g * light_intensity) (fin 0) (fin 255))
            (Clamp (ofUChar closestSphere.color.b * light_intensity) (fin 0) (fin 255))
      else .ok background := by
  rw [trace_ray]
  simp only [hd, or_true, if_true]
  split_ifs with hf
  · cases (ray_closest_intersection env spheres tmin tmax ro rd).closest_sphere with
    | none => rfl
    | some closestSphere =>
      simp only
      cases compute_light env spheres tmax lights
            (Vector3Add ro (Vector3Scale rd
              (ray_closest_intersection env spheres tmin tmax ro rd).closest_t))
            (Vector3Normalize env (Vector3Subtract
              (Vector3Add ro (Vector3Scale rd
                (ray_closest_intersection env spheres tmin tmax ro rd).closest_t))
              closestSphere.center))
            (Vector3Subtract cam_pos (Vector3Add ro (Vector3Scale rd
              (ray_closest_intersection env spheres tmin tmax ro rd).closest_t)))
            closestSphere.specular with
      | error e => rfl
      | ok li =>
        simp only [bind, Except.bind]
        cases mkColor
            (Clamp (ofUChar closestSphere.color.r * li) (fin 0) (fin 255))
            (Clamp (ofUChar closestSphere.color.g * li) (fin 0) (fin 255))
            (Clamp (ofUChar closestSphere.color.b * li) (fin 0) (fin 255)) <;> rfl
  · rfl

/-- With a recursion depth `<= 0`, a call of `trace_ray` is the only invocation. -/
theorem trace_ray_calls_of_depth_nonpos (env : Env K) (spheres : List (Sphere K))
    (lights : List (light K)) (ro rd cam_pos : Vector3 K) (tmin tmax : CFloat K)
    (recursion_depth : Int) (hd : recursion_depth ≤ 0) :
    trace_ray_calls env spheres lights ro rd cam_pos tmin tmax recursion_depth = 1 := by
  rw [trace_ray_calls]
  simp only [hd, or_true, if_true]
  split_ifs with hf
  · cases (ray_closest_intersection env spheres tmin tmax ro rd).closest_sphere with
    | none => rfl
    | some closestSphere =>
      simp only
      split
      · rfl
      · split <;> rfl
  · rfl

end Tracing

/-! ## Spheres that differ in their reflective coefficient only -/

/-- One iteration of the search does not read the reflective coefficient. -/
theorem closest_loop_body_sameButReflective (env : Env K)
    (tmin tmax : CFloat K) (ro rd : Vector3 K) (a b : Sphere K)
    (hab : sameButReflective a b) (acc acc' : ray_closest_intersection_result K)
    (h1 : acc.has_found = acc'.has_found) (h2 : acc.closest_t = acc'.closest_t)
    (h3 : Option.Rel sameButReflective acc.closest_sphere acc'.closest_sphere) :
    (closest_loop_body env tmin tmax ro rd acc a).has_found =
        (closest_loop_body env tmin tmax ro rd acc' b).has_found ∧
      (closest_loop_body env tmin tmax ro rd acc a).closest_t =
        (closest_loop_body env tmin tmax ro rd acc' b).closest_t ∧
      Option.Rel sameButReflective
        (closest_loop_body env tmin tmax ro rd acc a).closest_sphere
        (closest_loop_body env tmin tmax ro rd acc' b).closest_sphere := by
  have hrsi : ray_sphere_intersection env a.center a.radius ro rd =
      ray_sphere_intersection env b.center b.radius ro rd := by
    rw [hab.1, hab.2.1]
  have hsome : Option.Rel sameButReflective (some a) (some b) := Option.Rel.some hab
  obtain ⟨f, sp, c⟩ := acc
  obtain ⟨f', sp', c'⟩ := acc'
  simp only at h1 h2 h3
  subst h1 h2
  simp only [closest_loop_body, hrsi, gt_iff_lt]
  generalize (ray_sphere_intersection env b.center b.radius ro rd).is_intersecting = hit
  generalize (ray_sphere_intersection env b.center b.radius ro rd).intersections.x = t1
  generalize (ray_sphere_intersection env b.center b.radius ro rd).intersections.y = t2
  split_ifs <;> exact ⟨rfl, rfl, by assumption⟩

/-- The search does not read the reflective coefficients: on two lists of spheres that
differ in them only, it finds the same distance, and spheres that differ in their
reflective coefficient only. -/
theorem ray_closest_intersection_foldl_sameButReflective (env : Env K)
    (tmin tmax : CFloat K) (ro rd : Vector3 K) (l l' : List (Sphere K))
    (h : List.Forall₂ sameButReflective l l') :
    ∀ acc acc' : ray_closest_intersection_result K,
      acc.has_found = acc'.has_found → acc.closest_t = acc'.closest_t →
      Option.Rel sameButReflective acc.closest_sphere acc'.closest_sphere →
      (l.foldl (closest_loop_body env tmin tmax ro rd) acc).has_found =
          (l'.foldl (closest_loop_body env tmin tmax ro rd) acc').has_found ∧
        (l.foldl (closest_loop_body env tmin tmax ro rd) acc).closest_t =
          (l'.foldl (closest_loop_body env tmin tmax ro rd) acc').closest_t ∧
        Option.Rel sameButReflective
          (l.foldl (closest_loop_body env tmin tmax ro rd) acc).closest_sphere
          (l'.foldl (closest_loop_body env tmin tmax ro rd) acc').closest_sphere := by
  induction h with
  | nil => intro acc acc' h1 h2 h3; exact ⟨h1, h2, h3⟩
  | @cons a b l1 l2 hab _ ih =>
    intro acc acc' h1 h2 h3
    simp only [List.foldl_cons]
    obtain ⟨k1, k2, k3⟩ :=
      closest_loop_body_sameButReflective env tmin tmax ro rd a b hab acc acc' h1 h2 h3
    exact ih _ _ k1 k2 k3

theorem ray_closest_intersection_sameButReflective (env : Env K)
    (tmin tmax : CFloat K) (ro rd : Vector3 K) (l l' : List (Sphere K))
    (h : List.Forall₂ sameButReflective l l') :
    (ray_closest_intersection env l tmin tmax ro rd).has_found =
        (ray_closest_intersection env l' tmin tmax ro rd).has_found ∧
      (ray_closest_intersection env l tmin tmax ro rd).closest_t =
        (ray_closest_intersection env l' tmin tmax ro rd).closest_t ∧
      Option.Rel sameButReflective
        (ray_closest_intersection env l tmin tmax ro rd).closest_sphere
        (ray_closest_intersection env l' tmin tmax ro rd).closest_sphere :=
  ray_closest_intersection_foldl_sameButReflective env tmin tmax ro rd l l' h _ _ rfl rfl
    Option.Rel.none

/-- The lighting does not read the reflective coefficients. -/
theorem compute_light_sameButReflective (env : Env K) (l l' : List (Sphere K))
    (h : List.Forall₂ sameButReflective l l') (tmax : CFloat K) (lights : List (light K))
    (point normal view_vector : Vector3 K) (specular : CFloat K) :
    compute_light env l tmax lights point normal view_vector specular =
      compute_light env l' tmax lights point normal view_vector specular := by
  have hbody : light_loop_body env l tmax point normal view_vector specular =
      light_loop_body env l' tmax point normal view_vector specular := by
    funext intensity current_light
    cases current_light <;>
      simp only [light_loop_body, light_contribution,
        (ray_closest_intersection_sameButReflective env _ tmax point _ l l' h).1]
  simp only [compute_light, hbody]

section Tracing

variable [FloorRing K]

/-- Claim C8. With `recursion_depth <= 0`, `trace_ray` makes no recursive call (the call
is the only invocation); on a hit it returns the local-lit colour, each channel of the
hit sphere's colour times the intensity that `compute_light` returns, clamped to
`[0, 255]`, with alpha `255`; and so its result is the same on every list of spheres that
differs from the given one in the reflective coefficients only. -/
theorem trace_ray_depth_zero_is_local_colour (env : Env K) (spheres : List (Sphere K))
    (lights : List (light K)) (ro rd cam_pos : Vector3 K) (tmin tmax : CFloat K)
    (recursion_depth : Int) (hd : recursion_depth ≤ 0) :
    trace_ray_calls env spheres lights ro rd cam_pos tmin tmax recursion_depth = 1 ∧
    (∀ s, (ray_closest_intersection env spheres tmin tmax ro rd).has_found = true →
      (ray_closest_intersection env spheres tmin tmax ro rd).closest_sphere = some s →
      trace_ray env spheres lights ro rd cam_pos tmin tmax recursion_depth =
        compute_light env spheres tmax lights
          (Vector3Add ro (Vector3Scale rd
            (ray_closest_intersection env spheres tmin tmax ro rd).closest_t))
          (Vector3Normalize env (Vector3Subtract
            (Vector3Add ro (Vector3Scale rd
              (ray_closest_intersection env spheres tmin tmax ro rd).closest_t))
            s.center))
          (Vector3Subtract cam_pos (Vector3Add ro (Vector3Scale rd
            (ray_closest_intersection env spheres tmin tmax ro rd).closest_t)))
          s.specular >>= fun light_intensity =>
        mkColor
          (Clamp (ofUChar s.color.r * light_intensity) (fin 0) (fin 255))
          (Clamp (ofUChar s.color.g * light_intensity) (fin 0) (fin 255))
          (Clamp (ofUChar s.color.b * light_intensity) (fin 0) (fin 255))) ∧
    (∀ spheres', List.Forall₂ sameButReflective spheres spheres' →
      trace_ray env spheres' lights ro rd cam_pos tmin tmax recursion_depth =
        trace_ray env spheres lights ro rd cam_pos tmin tmax recursion_depth) := by
  refine ⟨trace_ray_calls_of_depth_nonpos env spheres lights ro rd cam_pos tmin tmax
    recursion_depth hd, fun s hf hs => ?_, fun spheres' hrel => ?_⟩
  · rw [trace_ray_of_depth_nonpos env spheres lights ro rd cam_pos tmin tmax
      recursion_depth hd, if_pos hf, hs]
  · rw [trace_ray_of_depth_nonpos env spheres lights ro rd cam_pos tmin tmax
      recursion_depth hd,
      trace_ray_of_depth_nonpos env spheres' lights ro rd cam_pos tmin tmax
      recursion_depth hd]
    obtain ⟨e1, e2, e3⟩ :=
      ray_closest_intersection_sameButReflective env tmin tmax ro rd spheres spheres' hrel
    rw [← e1, ← e2]
    generalize (ray_closest_intersection env spheres tmin tmax ro rd).closest_sphere = o
      at e3 ⊢
    generalize (ray_closest_intersection env spheres' tmin tmax ro rd).closest_sphere = o'
      at e3 ⊢
    cases e3 with
    | none => rfl
    | some hab =>
      obtain ⟨c1, -, c3, c4⟩ := hab
      simp only [c1, c3, c4,
        compute_light_sameButReflective env spheres spheres' hrel]

end Tracing

/-! ## Colours -/

/-- `Clamp` to `[0, 255]` on a finite value. -/
theorem Clamp_fin (x : K) :
    Clamp (fin x) (fin 0) (fin 255) =
      fin (if x < 0 then 0 else if 255 < x then 255 else x) := by
  simp only [Clamp, gt_iff_lt, fin_lt_fin]
  by_cases h0 : x < 0
  · simp [h0]
  · by_cases h1 : 255 < x
    · simp [h0, h1]
    · simp [h0, h1]

section Colours

variable [FloorRing K]

/-- A finite value clamped to `[0, 255]` converts to `unsigned char` without fault. -/
theorem exists_toUChar_Clamp_fin (x : K) :
    ∃ c, toUChar (Clamp (fin x) (fin 0) (fin 255)) = .ok c := by
  rw [Clamp_fin]
  have hb : -1 < (if x < 0 then (0 : K) else if 255 < x then 255 else x) ∧
      (if x < 0 then (0 : K) else if 255 < x then 255 else x) < 256 := by
    split_ifs with h0 h1
    · norm_num
    · norm_num
    · constructor <;> linarith [not_lt.1 h0, not_lt.1 h1]
  simp only [toUChar, hb, and_self, if_true]
  exact ⟨_, rfl⟩

/-- A channel value goes through `Clamp` and the conversion to `unsigned char`
unchanged. -/
theorem toUChar_Clamp_natCast (n : ℕ) (hn : n < 256) :
    toUChar (Clamp (fin (n : K)) (fin 0) (fin 255)) = .ok ⟨n, hn⟩ := by
  rw [Clamp_fin]
  have h0 : ¬ ((n : K) < 0) := not_lt.2 (Nat.cast_nonneg n)
  have h1 : ¬ ((255 : K) < (n : K)) := by
    rw [not_lt]
    have : n ≤ 255 := by omega
    exact_mod_cast this
  have h2 : (n : K) < 256 := by exact_mod_cast hn
  have h3 : (-1 : K) < (n : K) := lt_of_lt_of_le (by norm_num) (Nat.cast_nonneg n)
  simp only [h0, h1, if_false, toUChar, h2, h3, and_self, if_true, Nat.floor_natCast]
  congr 2
  exact Nat.mod_eq_of_lt hn

/-- Scaling a colour by the factor `1` returns its three channels, with alpha `255`. -/
theorem ColorScaleFactor_one (col : Color) :
    ColorScaleFactor col (fin (1 : K)) = .ok ⟨col.r, col.g, col.b, 255⟩ := by
  simp only [ColorScaleFactor, ofUChar, fin_mul_fin, mul_one, mkColor,
    toUChar_Clamp_natCast _ (Fin.is_lt _)]
  rfl

/-- Scaling a colour by the factor `0` returns black, with alpha `255`. -/
theorem ColorScaleFactor_zero (col : Color) :
    ColorScaleFactor col (fin (0 : K)) = .ok ⟨0, 0, 0, 255⟩ := by
  have h := toUChar_Clamp_natCast (K := K) 0 (by decide)
  simp only [Nat.cast_zero] at h
  simp only [ColorScaleFactor, ofUChar, fin_mul_fin, mul_zero, mkColor, h]
  rfl

end Colours

section Reflection

variable [FloorRing K]

/-- Claim C9. When the primary ray hits a sphere with `reflective = 1.0`, the recursion
depth is `>= 1`, the lighting and the local colour evaluate without fault, and the
reflected ray (origin the hit point, direction `ReflectRay(-rd, normal)`, window
`(0.01, tmax)`) hits no sphere, `trace_ray` returns the background colour
`(24, 1, 97, 255)`: the local colour is weighted by `0`, the reflected one by `1`.
`EPSILON` is a parameter, at most `1`. -/
theorem full_reflection_returns_background (env : Env K) (spheres : List (Sphere K))
    (lights : List (light K)) (ro rd cam_pos : Vector3 K) (tmin tmax : CFloat K)
    (recursion_depth : Int) (s : Sphere K) (light_intensity : CFloat K)
    (local_color : Color)
    (hf : (ray_closest_intersection env spheres tmin tmax ro rd).has_found = true)
    (hs : (ray_closest_intersection env spheres tmin tmax ro rd).closest_sphere = some s)
    (hrefl : s.reflective = fin 1) (hdepth : 1 ≤ recursion_depth)
    (heps : env.EPSILON ≤ 1)
    (hlight : compute_light env spheres tmax lights
        (Vector3Add ro (Vector3Scale rd
          (ray_closest_intersection env spheres tmin tmax ro rd).closest_t))
        (Vector3Normalize env (Vector3Subtract
          (Vector3Add ro (Vector3Scale rd
            (ray_closest_intersection env spheres tmin tmax ro rd).closest_t))
          s.center))
        (Vector3Subtract cam_pos (Vector3Add ro (Vector3Scale rd
          (ray_closest_intersection env spheres tmin tmax ro rd).closest_t)))
        s.specular = .ok light_intensity)
    (hlocal : mkColor
        (Clamp (ofUChar s.color.r * light_intensity) (fin 0) (fin 255))
        (Clamp (ofUChar s.color.g * light_intensity) (fin 0) (fin 255))
        (Clamp (ofUChar s.color.b * light_intensity) (fin 0) (fin 255)) = .ok local_color)
    (hmiss : (ray_closest_intersection env spheres (fin (1 / 100)) tmax
        (Vector3Add ro (Vector3Scale rd
          (ray_closest_intersection env spheres tmin tmax ro rd).closest_t))
        (ReflectRay (Vector3Scale rd (fin (-1)))
          (Vector3Normalize env (Vector3Subtract
            (Vector3Add ro (Vector3Scale rd
              (ray_closest_intersection env spheres tmin tmax ro rd).closest_t))
            s.center)))).has_found = false) :
    trace_ray env spheres lights ro rd cam_pos tmin tmax recursion_depth =
      .ok ⟨24, 1, 97, 255⟩ := by
  have hcond : ¬ ((fin 1 : CFloat K) < fin 0 + fin env.EPSILON ∨ recursion_depth ≤ 0) := by
    simp only [fin_add_fin, fin_lt_fin, zero_add, not_or, not_lt, not_le]
    exact ⟨heps, by omega⟩
  have hbg : trace_ray env spheres lights
      (Vector3Add ro (Vector3Scale rd
        (ray_closest_intersection env spheres tmin tmax ro rd).closest_t))
      (ReflectRay (Vector3Scale rd (fin (-1)))
        (Vector3Normalize env (Vector3Subtract
          (Vector3Add ro (Vector3Scale rd
            (ray_closest_intersection env spheres tmin tmax ro rd).closest_t))
          s.center)))
      cam_pos (fin (1 / 100)) tmax (recursion_depth - 1) = .ok background := by
    rw [trace_ray]
    simp only [hmiss, Bool.false_eq_true, if_false]
  rw [trace_ray]
  simp only [hf, if_true, hs, hlight, hlocal, hrefl, hcond, if_false, hbg, fin_sub_fin,
    sub_self, ColorScaleFactor_zero, ColorScaleFactor_one]
  have h24 := toUChar_Clamp_natCast (K := K) 24 (by decide)
  have h1 := toUChar_Clamp_natCast (K := K) 1 (by decide)
  have h97 := toUChar_Clamp_natCast (K := K) 97 (by decide)
  have e24 : ((0 : Fin 256).val + (24 : Fin 256).val) = 24 := rfl
  have e1 : ((0 : Fin 256).val + (1 : Fin 256).val) = 1 := rfl
  have e97 : ((0 : Fin 256).val + (97 : Fin 256).val) = 97 := rfl
  simp only [background, mkColor, e24, e1, e97, h24, h1, h97]
  rfl

end Reflection

/-! ## The spec's scenario, traced -/

/-- The hit point of the scenario is `(0,0,2)`. -/
theorem scenario_point :
    Vector3Add (scenarioOrigin : Vector3 K) (Vector3Scale scenarioDirection (fin 2)) =
      ⟨fin 0, fin 0, fin 2⟩ := by
  simp [Vector3Add, Vector3Scale, scenarioOrigin, scenarioDirection]

/-- The vector `(0,0,-1)` has length `1`. -/
theorem scenario_length (env : Env K) (h1 : env.sqrt 1 = 1) :
    Vector3Length env ⟨fin 0, fin 0, fin (-1)⟩ = fin 1 := by
  have e : (fin 0 * fin 0 + fin 0 * fin 0 + fin (-1) * fin (-1) : CFloat K) = fin 1 := by
    simp
  simp only [Vector3Length]
  rw [e, sqrt_fin env 1 zero_le_one, h1]

/-- The surface normal of the scenario at the hit point is `(0,0,-1)`. -/
theorem scenario_normal (env : Env K) (h1 : env.sqrt 1 = 1) (reflective : K) :
    Vector3Normalize env
      (Vector3Subtract ⟨fin 0, fin 0, fin 2⟩ (scenarioSphere reflective).center) =
      ⟨fin 0, fin 0, fin (-1)⟩ := by
  have e : Vector3Subtract ⟨fin 0, fin 0, fin 2⟩ (scenarioSphere reflective).center =
      ⟨fin 0, fin 0, fin (-1)⟩ := by
    simp [Vector3Subtract, scenarioSphere]
    norm_num
  rw [e]
  simp [Vector3Normalize, scenario_length env h1, CFloat.ne, eqb]

/-- The length of the normal `(0,0,-1)` passes the assertion of `compute_light`. -/
theorem scenario_assertion (env : Env K) (h1 : env.sqrt 1 = 1) (heps : 0 < env.EPSILON) :
    Vector3Length env ⟨fin 0, fin 0, fin (-1)⟩ < fin 1 + fin env.EPSILON := by
  rw [scenario_length env h1]
  simpa using heps

/-- One ambient light of intensity `1.0` gives the intensity `1.0` at the hit point of
the scenario. -/
theorem scenario_light (env : Env K) (h1 : env.sqrt 1 = 1) (heps : 0 < env.EPSILON)
    (spheres : List (Sphere K)) (tmax : CFloat K) (point view_vector : Vector3 K)
    (specular : CFloat K) :
    compute_light env spheres tmax [light.ambient (fin 1)] point
      ⟨fin 0, fin 0, fin (-1)⟩ view_vector specular = .ok (fin 1) := by
  rw [compute_light, if_pos (scenario_assertion env h1 heps)]
  simp only [List.foldl_cons, List.foldl_nil, light_loop_body, fin_add_fin, zero_add]

/-- The ray reflected at the hit point of the scenario leaves the sphere: its roots are
`0` and `-2`, below the bias `0.01`. -/
theorem scenario_reflected_miss (env : Env K) (h4 : env.sqrt 4 = 2) (reflective : K) :
    (ray_closest_intersection env [scenarioSphere reflective] (fin (1 / 100)) pinf
      ⟨fin 0, fin 0, fin 2⟩
      (ReflectRay (Vector3Scale scenarioDirection (fin (-1)))
        ⟨fin 0, fin 0, fin (-1)⟩)).has_found = false := by
  simp [ray_closest_intersection, closest_loop_body, ray_sphere_intersection, discriminant,
    ReflectRay, Vector3DotProduct, Vector3Subtract, Vector3Scale, scenarioDirection,
    scenarioSphere, CFloat.sqrt]
  norm_num [h4]

section ScenarioColours

variable [FloorRing K]

/-- The colour `(255,0,0)` lit with the intensity `1.0` is `(255,0,0,255)`. -/
theorem scenario_local_color (reflective : K) :
    mkColor
      (Clamp (ofUChar (scenarioSphere reflective).color.r * fin (1 : K)) (fin 0) (fin 255))
      (Clamp (ofUChar (scenarioSphere reflective).color.g * fin (1 : K)) (fin 0) (fin 255))
      (Clamp (ofUChar (scenarioSphere reflective).color.b * fin (1 : K)) (fin 0) (fin 255))
      = .ok ⟨255, 0, 0, 255⟩ :=
  ColorScaleFactor_one (scenarioSphere reflective).color

/-- Witness for claim C9: the scenario of the spec with `reflective = 1.0`, one ambient
light of intensity `1.0`, depth `1`, traced in the window `(1, INFINITY)` of `main`. -/
theorem full_reflection_returns_background_witness :
    trace_ray ratEnv [scenarioSphere 1] [light.ambient (fin 1)] scenarioOrigin
      scenarioDirection scenarioOrigin (fin 1) pinf 1 = .ok ⟨24, 1, 97, 255⟩ :=
  full_reflection_returns_background ratEnv [scenarioSphere 1] [light.ambient (fin 1)]
    scenarioOrigin scenarioDirection scenarioOrigin (fin 1) pinf 1 (scenarioSphere 1)
    (fin 1) ⟨255, 0, 0, 255⟩
    (by rw [scenario_closest ratEnv ratEnv_sqrt_four])
    (by rw [scenario_closest ratEnv ratEnv_sqrt_four])
    rfl (le_refl 1) (by norm_num [ratEnv])
    (by
      rw [scenario_closest ratEnv ratEnv_sqrt_four]
      simp only [scenario_point, scenario_normal ratEnv ratEnv_sqrt_one]
      exact scenario_light ratEnv ratEnv_sqrt_one (by norm_num [ratEnv]) _ _ _ _ _)
    (scenario_local_color 1)
    (by
      rw [scenario_closest ratEnv ratEnv_sqrt_four]
      simp only [scenario_point, scenario_normal ratEnv ratEnv_sqrt_one]
      exact scenario_reflected_miss ratEnv ratEnv_sqrt_four 1)

end ScenarioColours

/-! ## The normal that `trace_ray` passes to `compute_light` -/

/-- A square root that is exact and non-negative gives `sqrt 1 = 1`. -/
theorem sqrt_one_of_exact (env : Env K)
    (hsqrt : ∀ x, 0 ≤ x → 0 ≤ env.sqrt x ∧ env.sqrt x * env.sqrt x = x) :
    env.sqrt 1 = 1 := by
  obtain ⟨h0, h1⟩ := hsqrt 1 zero_le_one
  have h : (env.sqrt 1 - 1) * (env.sqrt 1 + 1) = 0 := by linear_combination h1
  rcases mul_eq_zero.1 h with h | h
  · linarith
  · linarith

/-- The length of a finite vector is finite. -/
theorem Vector3Length_fin (env : Env K) (x y z : K) :
    Vector3Length env ⟨fin x, fin y, fin z⟩ = fin (env.sqrt (x * x + y * y + z * z)) := by
  simp only [Vector3Length, fin_mul_fin, fin_add_fin]
  exact sqrt_fin env _ (add_nonneg (add_nonneg (mul_self_nonneg x) (mul_self_nonneg y))
    (mul_self_nonneg z))

/-- With an exact square root, the normalisation of a finite vector has length `1`, or
length `0` when the vector itself has length `0`. -/
theorem Vector3Length_Normalize_fin (env : Env K)
    (hsqrt : ∀ x, 0 ≤ x → 0 ≤ env.sqrt x ∧ env.sqrt x * env.sqrt x = x) (x y z : K) :
    Vector3Length env (Vector3Normalize env ⟨fin x, fin y, fin z⟩) = fin 1 ∨
    Vector3Length env (Vector3Normalize env ⟨fin x, fin y, fin z⟩) = fin 0 := by
  have hq0 : 0 ≤ x * x + y * y + z * z :=
    add_nonneg (add_nonneg (mul_self_nonneg x) (mul_self_nonneg y)) (mul_self_nonneg z)
  obtain ⟨-, hLL⟩ := hsqrt _ hq0
  by_cases hL : env.sqrt (x * x + y * y + z * z) = 0
  · right
    have e : Vector3Normalize env ⟨fin x, fin y, fin z⟩ = ⟨fin x, fin y, fin z⟩ := by
      simp [Vector3Normalize, Vector3Length_fin, CFloat.ne, eqb, hL]
    rw [e, Vector3Length_fin, hL]
  · left
    have e : Vector3Normalize env ⟨fin x, fin y, fin z⟩ =
        ⟨fin (x * (1 / env.sqrt (x * x + y * y + z * z))),
          fin (y * (1 / env.sqrt (x * x + y * y + z * z))),
          fin (z * (1 / env.sqrt (x * x + y * y + z * z)))⟩ := by
      simp [Vector3Normalize, Vector3Length_fin, CFloat.ne, eqb, hL]
    have e1 : x * (1 / env.sqrt (x * x + y * y + z * z)) *
          (x * (1 / env.sqrt (x * x + y * y + z * z))) +
        y * (1 / env.sqrt (x * x + y * y + z * z)) *
          (y * (1 / env.sqrt (x * x + y * y + z * z))) +
        z * (1 / env.sqrt (x * x + y * y + z * z)) *
          (z * (1 / env.sqrt (x * x + y * y + z * z))) = 1 := by
      field_simp
      linear_combination -hLL
    rw [e, Vector3Length_fin, e1, sqrt_one_of_exact env hsqrt]

/-- With an exact square root and `EPSILON > 0`, the normalisation of a finite vector
passes the assertion of `compute_light`. -/
theorem assertion_Normalize_fin (env : Env K)
    (hsqrt : ∀ x, 0 ≤ x → 0 ≤ env.sqrt x ∧ env.sqrt x * env.sqrt x = x)
    (heps : 0 < env.EPSILON) (x y z : K) :
    Vector3Length env (Vector3Normalize env ⟨fin x, fin y, fin z⟩) <
      fin 1 + fin env.EPSILON := by
  rcases Vector3Length_Normalize_fin env hsqrt x y z with h | h
  · rw [h]
    simpa using heps
  · rw [h]
    simp only [fin_add_fin, fin_lt_fin]
    linarith

section AmbientOnly

variable [FloorRing K]

/-- Witness for claim C8: the scenario of the spec with a reflective sphere and depth
`0`. -/
theorem trace_ray_depth_zero_is_local_colour_witness :
    trace_ray_calls ratEnv [scenarioSphere (1 / 2)] [light.ambient (fin 1)] scenarioOrigin
        scenarioDirection scenarioOrigin (fin 1) pinf 0 = 1 ∧
    (∀ spheres', List.Forall₂ sameButReflective [scenarioSphere (1 / 2)] spheres' →
      trace_ray ratEnv spheres' [light.ambient (fin 1)] scenarioOrigin
          scenarioDirection scenarioOrigin (fin 1) pinf 0 =
        trace_ray ratEnv [scenarioSphere (1 / 2)] [light.ambient (fin 1)] scenarioOrigin
          scenarioDirection scenarioOrigin (fin 1) pinf 0) :=
  ⟨(trace_ray_depth_zero_is_local_colour ratEnv [scenarioSphere (1 / 2)]
      [light.ambient (fin 1)] scenarioOrigin scenarioDirection scenarioOrigin (fin 1) pinf
      0 (le_refl 0)).1,
    (trace_ray_depth_zero_is_local_colour ratEnv [scenarioSphere (1 / 2)]
      [light.ambient (fin 1)] scenarioOrigin scenarioDirection scenarioOrigin (fin 1) pinf
      0 (le_refl 0)).2.2⟩

/-- Claim C10. In a scene whose only light is one ambient light of intensity `1.0`, a
finite ray whose nearest hit is a sphere with `reflective = 0` and a finite centre (any
specular value) makes `trace_ray` return the RGB colour of that sphere, unchanged, with
alpha `255`.  The parameters `sqrt` and `EPSILON` are an exact square root and a positive
number. -/
theorem ambient_only_returns_sphere_colour (env : Env K)
    (hsqrt : ∀ x, 0 ≤ x → 0 ≤ env.sqrt x ∧ env.sqrt x * env.sqrt x = x)
    (heps : 0 < env.EPSILON) (spheres : List (Sphere K))
    (rox roy roz rdx rdy rdz : K) (cam_pos : Vector3 K) (tmin tmax : CFloat K)
    (recursion_depth : Int) (s : Sphere K) (cx cy cz : K)
    (hf : (ray_closest_intersection env spheres tmin tmax ⟨fin rox, fin roy, fin roz⟩
      ⟨fin rdx, fin rdy, fin rdz⟩).has_found = true)
    (hs : (ray_closest_intersection env spheres tmin tmax ⟨fin rox, fin roy, fin roz⟩
      ⟨fin rdx, fin rdy, fin rdz⟩).closest_sphere = some s)
    (hc : s.center = ⟨fin cx, fin cy, fin cz⟩) (hrefl : s.reflective = fin 0) :
    trace_ray env spheres [light.ambient (fin 1)] ⟨fin rox, fin roy, fin roz⟩
      ⟨fin rdx, fin rdy, fin rdz⟩ cam_pos tmin tmax recursion_depth =
      .ok ⟨s.color.r, s.color.g, s.color.b, 255⟩ := by
  obtain ⟨-, inv2, -⟩ := ray_closest_intersection_invariant env spheres tmin tmax
    ⟨fin rox, fin roy, fin roz⟩ ⟨fin rdx, fin rdy, fin rdz⟩
  obtain ⟨s0, -, -, -, -, h1, h2⟩ := inv2 hf
  obtain ⟨t, ht⟩ := fin_of_between h1 h2
  have hcond : (fin 0 : CFloat K) < fin env.EPSILON ∨ recursion_depth ≤ 0 :=
    Or.inl (by simpa using heps)
  rw [trace_ray]
  simp only [hf, if_true, hs, ht, hc, Vector3Add, Vector3Scale, Vector3Subtract,
    fin_mul_fin, fin_add_fin, fin_sub_fin]
  rw [compute_light, if_pos (assertion_Normalize_fin env hsqrt heps _ _ _)]
  simp only [List.foldl_cons, List.foldl_nil, light_loop_body, fin_add_fin, zero_add,
    hrefl, hcond, if_true]
  have hcol := ColorScaleFactor_one (K := K) s.color
  simp only [ColorScaleFactor] at hcol
  rw [hcol]

end AmbientOnly

/-- The real square root is exact at `4`. -/
theorem real_sqrt_four : Real.sqrt 4 = 2 := by
  rw [show (4 : ℝ) = 2 * 2 by norm_num]
  exact Real.sqrt_mul_self (by norm_num)

/-- Witness for claim C10: the scenario of the spec over the reals, with the real square
root and `EPSILON = 0.000001`, traced in the window `(1, INFINITY)` with depth `3` as
`main` does: the nearest hit is at `t = 2`, the hit point is `(0,0,2)`, the normal is
`(0,0,-1)`, and the colour returned is `(255,0,0,255)`. -/
theorem ambient_only_returns_sphere_colour_witness :
    ray_closest_intersection (⟨Real.sqrt, fun _ _ => nan, 1 / 1000000⟩ : Env ℝ)
        [scenarioSphere 0] (fin 1) pinf scenarioOrigin scenarioDirection =
      ⟨true, some (scenarioSphere 0), fin 2⟩ ∧
    Vector3Add (scenarioOrigin : Vector3 ℝ) (Vector3Scale scenarioDirection (fin 2)) =
      ⟨fin 0, fin 0, fin 2⟩ ∧
    Vector3Normalize (⟨Real.sqrt, fun _ _ => nan, 1 / 1000000⟩ : Env ℝ)
        (Vector3Subtract ⟨fin 0, fin 0, fin 2⟩ (scenarioSphere (0 : ℝ)).center) =
      ⟨fin 0, fin 0, fin (-1)⟩ ∧
    trace_ray (⟨Real.sqrt, fun _ _ => nan, 1 / 1000000⟩ : Env ℝ) [scenarioSphere 0]
        [light.ambient (fin 1)] scenarioOrigin scenarioDirection scenarioOrigin
        (fin 1) pinf 3 = .ok ⟨255, 0, 0, 255⟩ :=
  ⟨scenario_closest _ real_sqrt_four 0, scenario_point,
    scenario_normal _ Real.sqrt_one 0,
    ambient_only_returns_sphere_colour (⟨Real.sqrt, fun _ _ => nan, 1 / 1000000⟩ : Env ℝ)
      (fun x hx => ⟨Real.sqrt_nonneg x, Real.mul_self_sqrt hx⟩) (by norm_num)
      [scenarioSphere 0] 0 0 0 0 0 1 scenarioOrigin (fin 1) pinf 3 (scenarioSphere 0)
      0 0 3
      (by
        show (ray_closest_intersection _ [scenarioSphere 0] (fin 1) pinf scenarioOrigin
          scenarioDirection).has_found = true
        rw [scenario_closest _ real_sqrt_four])
      (by
        show (ray_closest_intersection _ [scenarioSphere 0] (fin 1) pinf scenarioOrigin
          scenarioDirection).closest_sphere = some (scenarioSphere 0)
        rw [scenario_closest _ real_sqrt_four])
      rfl rfl⟩

/-! ## Blending -/

section Blending

variable [FloorRing K]

/-- In the reflective case `trace_ray` ends with `add_colors` on the two scaled
colours. -/
theorem trace_ray_blend (env : Env K) (spheres : List (Sphere K))
    (lights : List (light K)) (ro rd cam_pos : Vector3 K) (tmin tmax : CFloat K)
    (recursion_depth : Int) (s : Sphere K) (light_intensity : CFloat K)
    (local_color reflected_color a b : Color)
    (hf : (ray_closest_intersection env spheres tmin tmax ro rd).has_found = true)
    (hs : (ray_closest_intersection env spheres tmin tmax ro rd).closest_sphere = some s)
    (hcond : ¬ (s.reflective < fin 0 + fin env.EPSILON ∨ recursion_depth ≤ 0))
    (hlight : compute_light env spheres tmax lights
        (Vector3Add ro (Vector3Scale rd
          (ray_closest_intersection env spheres tmin tmax ro rd).closest_t))
        (Vector3Normalize env (Vector3Subtract
          (Vector3Add ro (Vector3Scale rd
            (ray_closest_intersection env spheres tmin tmax ro rd).closest_t))
          s.center))
        (Vector3Subtract cam_pos (Vector3Add ro (Vector3Scale rd
          (ray_closest_intersection env spheres tmin tmax ro rd).closest_t)))
        s.specular = .ok light_intensity)
    (hlocal : mkColor
        (Clamp (ofUChar s.color.r * light_intensity) (fin 0) (fin 255))
        (Clamp (ofUChar s.color.g * light_intensity) (fin 0) (fin 255))
        (Clamp (ofUChar s.color.b * light_intensity) (fin 0) (fin 255)) = .ok local_color)
    (hrec : trace_ray env spheres lights
        (Vector3Add ro (Vector3Scale rd
          (ray_closest_intersection env spheres tmin tmax ro rd).closest_t))
        (ReflectRay (Vector3Scale rd (fin (-1)))
          (Vector3Normalize env (Vector3Subtract
            (Vector3Add ro (Vector3Scale rd
              (ray_closest_intersection env spheres tmin tmax ro rd).closest_t))
            s.center)))
        cam_pos (fin (1 / 100)) tmax (recursion_depth - 1) = .ok reflected_color)
    (ha : ColorScaleFactor local_color (fin 1 - s.reflective) = .ok a)
    (hb : ColorScaleFactor reflected_color s.reflective = .ok b) :
    trace_ray env spheres lights ro rd cam_pos tmin tmax recursion_depth =
      add_colors K a b := by
  rw [trace_ray]
  simp only [hf, if_true, hs, hlight, hlocal, hcond, if_false, hrec, ha, hb, add_colors]

/-- Claim C11, as amended. Blending `ColorScaleFactor(c, 1)` with
`ColorScaleFactor(c2, 0)` by the clamped per-channel sum of `trace_ray` gives the colour
with the red, green and blue channels of `c` and alpha `255`; it is `c` itself when the
alpha of `c` is `255`. -/
theorem zero_blend_keeps_rgb (c c2 : Color) :
    (ColorScaleFactor c (fin (1 : K)) >>= fun a =>
      ColorScaleFactor c2 (fin (0 : K)) >>= fun b => add_colors K a b) =
        .ok ⟨c.r, c.g, c.b, 255⟩ ∧
    (c.a = 255 →
      (ColorScaleFactor c (fin (1 : K)) >>= fun a =>
        ColorScaleFactor c2 (fin (0 : K)) >>= fun b => add_colors K a b) = .ok c) := by
  have key : (ColorScaleFactor c (fin (1 : K)) >>= fun a =>
      ColorScaleFactor c2 (fin (0 : K)) >>= fun b => add_colors K a b) =
        .ok ⟨c.r, c.g, c.b, 255⟩ := by
    rw [ColorScaleFactor_one, ColorScaleFactor_zero]
    simp only [bind, Except.bind, add_colors, mkColor]
    have e0 : (0 : Fin 256).val = 0 := rfl
    simp only [e0, Nat.add_zero, toUChar_Clamp_natCast _ (Fin.is_lt _)]
    rfl
  refine ⟨key, fun ha => ?_⟩
  rw [key]
  cases c
  simp only at ha
  rw [ha]

/-- Witness for claim C11: an opaque colour comes back unchanged. -/
theorem zero_blend_keeps_rgb_witness :
    (ColorScaleFactor ⟨10, 20, 30, 255⟩ (fin (1 : ℚ)) >>= fun a =>
      ColorScaleFactor ⟨5, 6, 7, 255⟩ (fin (0 : ℚ)) >>= fun b => add_colors ℚ a b) =
        .ok ⟨10, 20, 30, 255⟩ :=
  (zero_blend_keeps_rgb ⟨10, 20, 30, 255⟩ ⟨5, 6, 7, 255⟩).2 rfl

/-- Counterexample to claim C11 as stated: the colour `(10, 20, 30, 128)` comes back with
alpha `255`, which is another colour. -/
theorem zero_blend_changes_alpha :
    (ColorScaleFactor ⟨10, 20, 30, 128⟩ (fin (1 : ℚ)) >>= fun a =>
      ColorScaleFactor ⟨5, 6, 7, 255⟩ (fin (0 : ℚ)) >>= fun b => add_colors ℚ a b) =
        .ok ⟨10, 20, 30, 255⟩ ∧
    (ColorScaleFactor ⟨10, 20, 30, 128⟩ (fin (1 : ℚ)) >>= fun a =>
      ColorScaleFactor ⟨5, 6, 7, 255⟩ (fin (0 : ℚ)) >>= fun b => add_colors ℚ a b) ≠
        .ok ⟨10, 20, 30, 128⟩ := by
  have key : (ColorScaleFactor ⟨10, 20, 30, 128⟩ (fin (1 : ℚ)) >>= fun a =>
      ColorScaleFactor ⟨5, 6, 7, 255⟩ (fin (0 : ℚ)) >>= fun b => add_colors ℚ a b) =
        .ok ⟨10, 20, 30, 255⟩ := by
    rw [ColorScaleFactor_one, ColorScaleFactor_zero]
    simp only [bind, Except.bind, add_colors, mkColor]
    have e0 : (0 : Fin 256).val = 0 := rfl
    simp only [e0, Nat.add_zero, toUChar_Clamp_natCast _ (Fin.is_lt _)]
    rfl
  refine ⟨key, ?_⟩
  rw [key]
  intro h
  have h2 := Except.ok.inj h
  exact absurd (congrArg Color.a h2) (by decide)

end Blending

/-! ## A ray with a zero direction -/

/-- A quotient by zero is `NaN` or an infinity: it lies in no window. -/
theorem div_zero_not_between (X tmin tmax : CFloat K) :
    ¬ (tmin < X / fin 0 ∧ X / fin 0 < tmax) := by
  have h : X / fin 0 = nan ∨ X / fin 0 = pinf ∨ X / fin 0 = ninf := by
    cases X with
    | fin x =>
      rw [fin_div_fin_eq]
      simp only [if_true]
      split_ifs <;> simp
    | pinf => right; left; show div pinf (fin 0) = pinf; simp [div]
    | ninf => right; right; show div ninf (fin 0) = ninf; simp [div]
    | nan => left; rfl
  rcases h with h | h | h <;> rw [h]
  · simp
  · rintro ⟨-, h2⟩
    cases tmax <;> simp [lt_iff, ltb] at h2
  · rintro ⟨h1, -⟩
    cases tmin <;> simp [lt_iff, ltb] at h1

/-- The divisor `2*a` of the roots is zero for the zero direction. -/
theorem two_a_zero_direction :
    (fin 2 * Vector3DotProduct (⟨fin 0, fin 0, fin 0⟩ : Vector3 K) ⟨fin 0, fin 0, fin 0⟩) =
      fin 0 := by
  simp [Vector3DotProduct]

/-- With the zero direction, no iteration of the search records anything, whatever the
sphere and the window are. -/
theorem closest_loop_body_zero_direction (env : Env K) (tmin tmax : CFloat K)
    (ro : Vector3 K) (acc : ray_closest_intersection_result K) (s : Sphere K) :
    closest_loop_body env tmin tmax ro ⟨fin 0, fin 0, fin 0⟩ acc s = acc := by
  by_cases hd : discriminant s.center s.radius ro ⟨fin 0, fin 0, fin 0⟩ < fin 0
  · simp [closest_loop_body, ray_sphere_intersection_miss env _ _ _ _ hd]
  · simp only [closest_loop_body, ray_sphere_intersection_hit env _ _ _ _ hd,
      two_a_zero_direction, gt_iff_lt, if_true, div_zero_not_between, if_false]

/-- With the zero direction the search finds nothing. -/
theorem ray_closest_intersection_zero_direction (env : Env K) (spheres : List (Sphere K))
    (tmin tmax : CFloat K) (ro : Vector3 K) :
    ray_closest_intersection env spheres tmin tmax ro ⟨fin 0, fin 0, fin 0⟩ =
      ⟨false, none, pinf⟩ := by
  unfold ray_closest_intersection
  generalize (⟨false, none, pinf⟩ : ray_closest_intersection_result K) = acc
  induction spheres with
  | nil => rfl
  | cons s l ih => rw [List.foldl_cons, closest_loop_body_zero_direction, ih]

/-- Claim C14, as amended. For a finite sphere and a finite ray origin (and a `sqrt` with
`sqrt 0 = 0`), `ray_sphere_intersection` with the direction `(0,0,0)` does not return the
sentinel: the discriminant is `0`, so it returns `is_intersecting = true`, and both roots
are the `NaN` of `0/0`.  Such roots lie in no window: with the zero direction
`ray_closest_intersection` finds nothing, for every list of spheres. -/
theorem zero_direction_gives_nan_roots (env : Env K) (h0 : env.sqrt 0 = 0)
    (sox soy soz sr rox roy roz : K) :
    ray_sphere_intersection env ⟨fin sox, fin soy, fin soz⟩ (fin sr)
        ⟨fin rox, fin roy, fin roz⟩ ⟨fin 0, fin 0, fin 0⟩ = ⟨true, ⟨nan, nan⟩⟩ ∧
    (∀ (spheres : List (Sphere K)) (tmin tmax : CFloat K) (ro : Vector3 K),
      (ray_closest_intersection env spheres tmin tmax ro ⟨fin 0, fin 0, fin 0⟩).has_found
        = false) := by
  constructor
  · have hD : discriminant ⟨fin sox, fin soy, fin soz⟩ (fin sr)
        ⟨fin rox, fin roy, fin roz⟩ ⟨fin 0, fin 0, fin 0⟩ = fin 0 := by
      rw [discriminant_fin]
      congr 1
      ring
    rw [ray_sphere_intersection_hit env _ _ _ _ (by rw [hD]; simp), hD,
      sqrt_fin env 0 (le_refl 0), h0]
    simp [Vector3DotProduct, Vector3Subtract]
  · intro spheres tmin tmax ro
    rw [ray_closest_intersection_zero_direction]

/-- The square root of the rational environment is exact at `0`. -/
theorem ratEnv_sqrt_zero : ratEnv.sqrt 0 = 0 := by
  simp [ratEnv]

/-- Witness for claim C14: the sphere of the spec's scenario and a ray from the origin
with the zero direction. -/
theorem zero_direction_gives_nan_roots_witness :
    ray_sphere_intersection ratEnv ⟨fin 0, fin 0, fin 3⟩ (fin 1)
        ⟨fin 0, fin 0, fin 0⟩ ⟨fin 0, fin 0, fin 0⟩ = ⟨true, ⟨nan, nan⟩⟩ ∧
    (∀ (spheres : List (Sphere ℚ)) (tmin tmax : CFloat ℚ) (ro : Vector3 ℚ),
      (ray_closest_intersection ratEnv spheres tmin tmax ro
        ⟨fin 0, fin 0, fin 0⟩).has_found = false) :=
  zero_direction_gives_nan_roots ratEnv ratEnv_sqrt_zero 0 0 3 1 0 0 0

/-- Counterexample to claim C14 as stated: for the sphere of the spec's scenario and a
ray from the origin with the zero direction, `is_intersecting` is `true`, not `false`,
and the roots are not the sentinel `-1`. -/
theorem zero_direction_is_not_sentinel :
    (ray_sphere_intersection ratEnv ⟨fin 0, fin 0, fin 3⟩ (fin 1)
        ⟨fin 0, fin 0, fin 0⟩ ⟨fin 0, fin 0, fin 0⟩).is_intersecting = true ∧
    (ray_sphere_intersection ratEnv ⟨fin 0, fin 0, fin 3⟩ (fin 1)
        ⟨fin 0, fin 0, fin 0⟩ ⟨fin 0, fin 0, fin 0⟩).intersections.x ≠ fin (-1) := by
  have hD : discriminant ⟨fin 0, fin 0, fin 3⟩ (fin 1)
      ⟨fin 0, fin 0, fin 0⟩ (⟨fin 0, fin 0, fin 0⟩ : Vector3 ℚ) = fin 0 := by
    rw [discriminant_fin]
    norm_num
  rw [ray_sphere_intersection_hit ratEnv _ _ _ _ (by rw [hD]; simp), hD,
    sqrt_fin ratEnv 0 (le_refl 0), ratEnv_sqrt_zero]
  simp [Vector3DotProduct, Vector3Subtract]

/-! ## The assertion of `compute_light` -/

/-- Claim C13, as amended. The assertion of `compute_light` fails exactly when the length
of the normal is not below `1 + EPSILON` (a normal that is too long, or a length that is
`NaN`); with a length below `1 + EPSILON`, shorter than `1` included, the assertion
passes and an intensity is returned. -/
theorem assertion_only_rejects_long_normals (env : Env K) (spheres : List (Sphere K))
    (tmax : CFloat K) (lights : List (light K)) (point normal view_vector : Vector3 K)
    (specular : CFloat K) :
    (compute_light env spheres tmax lights point normal view_vector specular =
        .error .assertion_failed ↔
      ¬ (Vector3Length env normal < fin 1 + fin env.EPSILON)) ∧
    ((∃ v, compute_light env spheres tmax lights point normal view_vector specular = .ok v) ↔
      Vector3Length env normal < fin 1 + fin env.EPSILON) := by
  by_cases h : Vector3Length env normal < fin 1 + fin env.EPSILON
  · rw [compute_light, if_pos h]
    exact ⟨⟨fun e => (by cases e), fun e => absurd h e⟩, ⟨fun _ => h, fun _ => ⟨_, rfl⟩⟩⟩
  · rw [compute_light, if_neg h]
    exact ⟨⟨fun _ => h, fun _ => rfl⟩, ⟨fun ⟨v, e⟩ => (by cases e), fun e => absurd e h⟩⟩

/-- The length of the zero vector in the rational environment is `0`. -/
theorem ratEnv_length_zero : Vector3Length ratEnv ⟨fin 0, fin 0, fin 0⟩ = fin 0 := by
  rw [Vector3Length_fin]
  norm_num [ratEnv_sqrt_zero]

/-- The length of `(0, 0, 1/2)` in the rational environment is `1/2`. -/
theorem ratEnv_length_half : Vector3Length ratEnv ⟨fin 0, fin 0, fin (1 / 2)⟩ = fin (1 / 2) := by
  rw [Vector3Length_fin]
  have e : (0 : ℚ) * 0 + 0 * 0 + 1 / 2 * (1 / 2) = (1 / 2) * (1 / 2) := by norm_num
  rw [e]
  show fin (Rat.sqrt (1 / 2 * (1 / 2))) = fin (1 / 2)
  rw [Rat.sqrt_eq]
  norm_num [abs_of_pos]

/-- Counterexample to claim C13 as stated: with the zero vector as the normal, and with a
normal of length `1/2`, `compute_light` does not fail: it returns the intensity `1` of the
ambient light. -/
theorem short_normal_passes_assertion :
    (Vector3Length ratEnv ⟨fin 0, fin 0, fin 0⟩ = fin 0 ∧
      compute_light ratEnv [] pinf [light.ambient (fin 1)] scenarioOrigin
        ⟨fin 0, fin 0, fin 0⟩ scenarioOrigin (fin (-1)) = .ok (fin 1)) ∧
    (Vector3Length ratEnv ⟨fin 0, fin 0, fin (1 / 2)⟩ = fin (1 / 2) ∧
      compute_light ratEnv [] pinf [light.ambient (fin 1)] scenarioOrigin
        ⟨fin 0, fin 0, fin (1 / 2)⟩ scenarioOrigin (fin (-1)) = .ok (fin 1)) := by
  refine ⟨⟨ratEnv_length_zero, ?_⟩, ⟨ratEnv_length_half, ?_⟩⟩
  · rw [compute_light, ratEnv_length_zero, if_pos (by norm_num [ratEnv])]
    simp [light_loop_body]
  · rw [compute_light, ratEnv_length_half, if_pos (by norm_num [ratEnv])]
    simp [light_loop_body]

/-! ## Ties between spheres -/

/-- Claim C15. When `ray_closest_intersection` finds a sphere, the sphere it returns
stands at an index `i` of the list such that every root inside the window of every
sphere at a smaller index is strictly greater than `closest_t`: among the spheres that
attain the smallest distance, the one returned is the first of the list. -/
theorem first_sphere_wins_ties (env : Env K) (spheres : List (Sphere K))
    (tmin tmax : CFloat K) (ro rd : Vector3 K)
    (h : (ray_closest_intersection env spheres tmin tmax ro rd).has_found = true) :
    ∃ (i : ℕ) (s : Sphere K), spheres[i]? = some s ∧
      (ray_closest_intersection env spheres tmin tmax ro rd).closest_sphere = some s ∧
      (ray_sphere_intersection env s.center s.radius ro rd).is_intersecting = true ∧
      ((ray_closest_intersection env spheres tmin tmax ro rd).closest_t =
          (ray_sphere_intersection env s.center s.radius ro rd).intersections.x ∨
        (ray_closest_intersection env spheres tmin tmax ro rd).closest_t =
          (ray_sphere_intersection env s.center s.radius ro rd).intersections.y) ∧
      ∀ (j : ℕ) (s' : Sphere K), j < i → spheres[j]? = some s' →
        (ray_sphere_intersection env s'.center s'.radius ro rd).is_intersecting = true →
        ∀ t, (t = (ray_sphere_intersection env s'.center s'.radius ro rd).intersections.x ∨
            t = (ray_sphere_intersection env s'.center s'.radius ro rd).intersections.y) →
          tmin < t → t < tmax →
          (ray_closest_intersection env spheres tmin tmax ro rd).closest_t < t := by
  induction spheres using List.reverseRecOn with
  | nil => simp [ray_closest_intersection] at h
  | append_singleton l a ih =>
    obtain ⟨inv1, inv2, inv3⟩ := ray_closest_intersection_invariant env l tmin tmax ro rd
    rw [ray_closest_intersection_append] at h ⊢
    generalize ray_closest_intersection env l tmin tmax ro rd = acc at ih inv1 inv2 inv3 h
    rcases closest_loop_body_cases env tmin tmax ro rd acc a with heq | hnew
    · rw [heq] at h ⊢
      obtain ⟨i, s, hi, hs, hint, hroot, hfirst⟩ := ih h
      have hlt : i < l.length := (List.getElem?_eq_some_iff.1 hi).1
      refine ⟨i, s, by rw [List.getElem?_append_left hlt]; exact hi, hs, hint, hroot, ?_⟩
      intro j s' hj hs' hint' t ht h1 h2
      rw [List.getElem?_append_left (lt_trans hj hlt)] at hs'
      exact hfirst j s' hj hs' hint' t ht h1 h2
    · obtain ⟨-, n2, n3, n4, -, -, n7⟩ := hnew
      refine ⟨l.length, a, List.getElem?_concat_length l a, n2, n3, n4, ?_⟩
      intro j s' hj hs' hint' t ht h1 h2
      rw [List.getElem?_append_left hj] at hs'
      exact flt_of_flt_of_fle n7 (inv3 s' (List.getElem?_mem hs') hint' t ht h1 h2)

/-- The scenario's ray meets the twin sphere at `t = 4` and `t = 2`, like the sphere of
the scenario. -/
theorem twinSphere_roots :
    ray_sphere_intersection ratEnv twinSphere.center twinSphere.radius
      scenarioOrigin scenarioDirection = ⟨true, ⟨fin 4, fin 2⟩⟩ :=
  scenario_roots ratEnv ratEnv_sqrt_four 0

/-- With the sphere of the scenario first and its twin second, the search returns the
sphere of the scenario. -/
theorem twins_closest :
    ray_closest_intersection ratEnv [scenarioSphere 0, twinSphere] (fin 1) pinf
      scenarioOrigin scenarioDirection = ⟨true, some (scenarioSphere 0), fin 2⟩ := by
  simp [ray_closest_intersection, closest_loop_body,
    scenario_roots ratEnv ratEnv_sqrt_four, twinSphere_roots, lt_iff, ltb]
  norm_num

/-- Witness for claim C15: two spheres at the same place, which the scenario's ray meets
at the same distance `t = 2`; the first of the list is returned. -/
theorem first_sphere_wins_ties_witness :
    (ray_closest_intersection ratEnv [scenarioSphere 0, twinSphere] (fin 1) pinf
      scenarioOrigin scenarioDirection).closest_sphere = some (scenarioSphere 0) ∧
    ∃ (i : ℕ) (s : Sphere ℚ), [scenarioSphere 0, twinSphere][i]? = some s ∧
      (ray_closest_intersection ratEnv [scenarioSphere 0, twinSphere] (fin 1) pinf
        scenarioOrigin scenarioDirection).closest_sphere = some s ∧
      (ray_sphere_intersection ratEnv s.center s.radius scenarioOrigin
        scenarioDirection).is_intersecting = true ∧
      ((ray_closest_intersection ratEnv [scenarioSphere 0, twinSphere] (fin 1) pinf
          scenarioOrigin scenarioDirection).closest_t =
          (ray_sphere_intersection ratEnv s.center s.radius scenarioOrigin
            scenarioDirection).intersections.x ∨
        (ray_closest_intersection ratEnv [scenarioSphere 0, twinSphere] (fin 1) pinf
          scenarioOrigin scenarioDirection).closest_t =
          (ray_sphere_intersection ratEnv s.center s.radius scenarioOrigin
            scenarioDirection).intersections.y) ∧
      ∀ (j : ℕ) (s' : Sphere ℚ), j < i → [scenarioSphere 0, twinSphere][j]? = some s' →
        (ray_sphere_intersection ratEnv s'.center s'.radius scenarioOrigin
          scenarioDirection).is_intersecting = true →
        ∀ t, (t = (ray_sphere_intersection ratEnv s'.center s'.radius scenarioOrigin
                scenarioDirection).intersections.x ∨
            t = (ray_sphere_intersection ratEnv s'.center s'.radius scenarioOrigin
                scenarioDirection).intersections.y) →
          fin 1 < t → t < pinf →
          (ray_closest_intersection ratEnv [scenarioSphere 0, twinSphere] (fin 1) pinf
            scenarioOrigin scenarioDirection).closest_t < t :=
  ⟨by rw [twins_closest],
    first_sphere_wins_ties ratEnv [scenarioSphere 0, twinSphere] (fin 1) pinf
      scenarioOrigin scenarioDirection (by rw [twins_closest])⟩

/-! ## The number of invocations -/

section Invocations

variable [FloorRing K]

/-- A call of `trace_ray` with a depth whose non-negative part is `n` makes at most
`n + 1` invocations. -/
theorem trace_ray_calls_le (env : Env K) (spheres : List (Sphere K))
    (lights : List (light K)) (cam_pos : Vector3 K) (tmax : CFloat K) (n : ℕ) :
    ∀ (recursion_depth : Int) (ro rd : Vector3 K) (tmin : CFloat K),
      recursion_depth.toNat = n →
      trace_ray_calls env spheres lights ro rd cam_pos tmin tmax recursion_depth ≤ n + 1 := by
  induction n with
  | zero =>
    intro recursion_depth ro rd tmin hn
    rw [trace_ray_calls_of_depth_nonpos env spheres lights ro rd cam_pos tmin tmax
      recursion_depth (by omega)]
  | succ n ih =>
    intro recursion_depth ro rd tmin hn
    rw [trace_ray_calls]
    simp only
    split_ifs with hf
    · split
      · omega
      · split
        · omega
        · split
          · omega
          · split_ifs with hc
            · omega
            · exact le_trans (Nat.add_le_add_left (ih _ _ _ _ (by omega)) 1) (by omega)
    · omega

/-- Every call of `trace_ray` makes at least one invocation: itself. -/
theorem one_le_trace_ray_calls (env : Env K) (spheres : List (Sphere K))
    (lights : List (light K)) (ro rd cam_pos : Vector3 K) (tmin tmax : CFloat K)
    (recursion_depth : Int) :
    1 ≤ trace_ray_calls env spheres lights ro rd cam_pos tmin tmax recursion_depth := by
  rw [trace_ray_calls]
  simp only
  split_ifs with hf
  · split
    · omega
    · split
      · omega
      · split
        · omega
        · split_ifs with hc
          · omega
          · omega
  · omega

/-- Claim C16. `trace_ray` is a total function: its recursion is well founded on the
non-negative part of `recursion_depth`, because the recursive call is made only when
`recursion_depth > 0`, with `recursion_depth - 1`.  A call makes at least one and at
most `max(recursion_depth, 0) + 1` invocations of `trace_ray`; with a depth `<= 0` it
makes exactly one, and with a depth `d >= 0` at most `d + 1`. -/
theorem trace_ray_invocations_bounded (env : Env K) (spheres : List (Sphere K))
    (lights : List (light K)) (ro rd cam_pos : Vector3 K) (tmin tmax : CFloat K)
    (recursion_depth : Int) :
    (∃ result, trace_ray env spheres lights ro rd cam_pos tmin tmax recursion_depth
      = result) ∧
    1 ≤ trace_ray_calls env spheres lights ro rd cam_pos tmin tmax recursion_depth ∧
    trace_ray_calls env spheres lights ro rd cam_pos tmin tmax recursion_depth ≤
      recursion_depth.toNat + 1 ∧
    (recursion_depth ≤ 0 →
      trace_ray_calls env spheres lights ro rd cam_pos tmin tmax recursion_depth = 1) ∧
    (0 ≤ recursion_depth →
      (trace_ray_calls env spheres lights ro rd cam_pos tmin tmax recursion_depth : Int) ≤
        recursion_depth + 1) := by
  have hle := trace_ray_calls_le env spheres lights cam_pos tmax recursion_depth.toNat
    recursion_depth ro rd tmin rfl
  refine ⟨⟨_, rfl⟩, one_le_trace_ray_calls env spheres lights ro rd cam_pos tmin tmax
    recursion_depth, hle, fun hd => ?_, fun hd => ?_⟩
  · exact trace_ray_calls_of_depth_nonpos env spheres lights ro rd cam_pos tmin tmax
      recursion_depth hd
  · omega

end Invocations

/-! ## Lights in shadow -/

/-- A light whose shadow check finds a sphere leaves the intensity as it is. -/
theorem light_loop_body_of_shadow_check (env : Env K) (spheres : List (Sphere K))
    (tmax : CFloat K) (point normal view_vector : Vector3 K) (specular : CFloat K)
    (intensity : CFloat K) (l : light K)
    (h : shadow_check env spheres tmax point l = true) :
    light_loop_body env spheres tmax point normal view_vector specular intensity l =
      intensity := by
  cases l with
  | ambient i => simp [shadow_check] at h
  | point i position =>
    simp only [shadow_check] at h
    simp only [light_loop_body, light_contribution, h, if_true]
  | directional i direction =>
    simp only [shadow_check] at h
    simp only [light_loop_body, light_contribution, h, if_true]

/-- A left fold skips the elements on which the step does nothing. -/
theorem foldl_filter_of_skip {α β : Type} (f : β → α → β) (p : α → Bool)
    (hskip : ∀ acc x, p x = false → f acc x = acc) (l : List α) :
    ∀ acc, l.foldl f acc = (l.filter p).foldl f acc := by
  induction l with
  | nil => intro acc; rfl
  | cons x l ih =>
    intro acc
    cases hp : p x with
    | true => rw [List.filter_cons_of_pos (by simpa using hp), List.foldl_cons,
        List.foldl_cons, ih]
    | false => rw [List.filter_cons_of_neg (by simp [hp]), List.foldl_cons,
        hskip acc x hp, ih]

/-- Claim C17. A point or directional light whose shadow ray (origin the shaded point,
direction `L`, window `(0.001, tmax)`) has a nearest hit adds nothing to the intensity:
`compute_light` returns over a list of lights what it returns over the list without the
lights in shadow, and a single point light in shadow gives the intensity `0` (when the
assertion on the normal passes). -/
theorem lights_in_shadow_add_nothing (env : Env K) (spheres : List (Sphere K))
    (tmax : CFloat K) (lights : List (light K)) (point normal view_vector : Vector3 K)
    (specular : CFloat K) :
    compute_light env spheres tmax lights point normal view_vector specular =
      compute_light env spheres tmax
        (lights.filter (fun l => !shadow_check env spheres tmax point l))
        point normal view_vector specular ∧
    (∀ (i : CFloat K) (position : Vector3 K),
      shadow_check env spheres tmax point (light.point i position) = true →
      Vector3Length env normal < fin 1 + fin env.EPSILON →
      compute_light env spheres tmax [light.point i position] point normal view_vector
        specular = .ok (fin 0)) := by
  constructor
  · simp only [compute_light]
    rw [foldl_filter_of_skip _ (fun l => !shadow_check env spheres tmax point l)
      (fun acc l hl => light_loop_body_of_shadow_check env spheres tmax point normal
        view_vector specular acc l (by simpa using hl)) lights (fin 0)]
  · intro i position hshadow hassert
    rw [compute_light, if_pos hassert, List.foldl_cons, List.foldl_nil,
      light_loop_body_of_shadow_check env spheres tmax point normal view_vector specular
        (fin 0) _ hshadow]

/-- The shadow ray from the origin to a light at `(0,0,10)` meets the sphere of the
scenario, at `t = 2/5` and `t = 1/5`. -/
theorem scenario_light_in_shadow :
    shadow_check ratEnv [scenarioSphere 0] pinf scenarioOrigin
      (light.point (fin 1) ⟨fin 0, fin 0, fin 10⟩) = true := by
  have h400 : Rat.sqrt 400 = 20 := by
    rw [show (400 : ℚ) = 20 * 20 by norm_num, Rat.sqrt_eq]
    norm_num [abs_of_pos]
  simp [shadow_check, ray_closest_intersection, closest_loop_body, ray_sphere_intersection,
    discriminant, Vector3DotProduct, Vector3Subtract, scenarioOrigin, scenarioSphere,
    CFloat.sqrt, ratEnv]
  norm_num [h400]

/-- Witness for claim C17: one point light at `(0,0,10)`, behind the sphere of the
scenario as seen from the origin, shaded with the normal `(0,0,-1)`: the light is in
shadow and the intensity is `0`. -/
theorem lights_in_shadow_add_nothing_witness :
    shadow_check ratEnv [scenarioSphere 0] pinf scenarioOrigin
      (light.point (fin 1) ⟨fin 0, fin 0, fin 10⟩) = true ∧
    compute_light ratEnv [scenarioSphere 0] pinf
      [light.point (fin 1) ⟨fin 0, fin 0, fin 10⟩] scenarioOrigin
      ⟨fin 0, fin 0, fin (-1)⟩ scenarioOrigin (fin 10) = .ok (fin 0) :=
  ⟨scenario_light_in_shadow,
    (lights_in_shadow_add_nothing ratEnv [scenarioSphere 0] pinf
      [light.point (fin 1) ⟨fin 0, fin 0, fin 10⟩] scenarioOrigin
      ⟨fin 0, fin 0, fin (-1)⟩ scenarioOrigin (fin 10)).2 (fin 1) ⟨fin 0, fin 0, fin 10⟩
      scenario_light_in_shadow
      (scenario_assertion ratEnv ratEnv_sqrt_one (by norm_num [ratEnv]))⟩

/-! ## A light at the shaded point -/

namespace CFloat

/-- A product with the finite value `0` on the right is `0` or `NaN`. -/
theorem mul_fin_zero (a : CFloat K) : a * fin 0 = fin 0 ∨ a * fin 0 = nan := by
  cases a with
  | fin x => left; simp
  | pinf => right; show mul pinf (fin 0) = nan; simp [mul, infTimes]
  | ninf => right; show mul ninf (fin 0) = nan; simp [mul, infTimes]
  | nan => right; rfl

/-- A product of `0` or `NaN` with anything is `0` or `NaN`. -/
theorem zero_or_nan_mul {a : CFloat K} (ha : a = fin 0 ∨ a = nan) (b : CFloat K) :
    a * b = fin 0 ∨ a * b = nan := by
  rcases ha with rfl | rfl
  · cases b with
    | fin y => left; simp
    | pinf => right; show mul (fin 0) pinf = nan; simp [mul, infTimes]
    | ninf => right; show mul (fin 0) ninf = nan; simp [mul, infTimes]
    | nan => right; rfl
  · right; cases b <;> rfl

/-- A product of anything with `0` or `NaN` is `0` or `NaN`. -/
theorem mul_zero_or_nan (a : CFloat K) {b : CFloat K} (hb : b = fin 0 ∨ b = nan) :
    a * b = fin 0 ∨ a * b = nan := by
  rcases hb with rfl | rfl
  · exact mul_fin_zero a
  · right; cases a <;> rfl

/-- A sum of two values that are `0` or `NaN` is `0` or `NaN`. -/
theorem zero_or_nan_add {a b : CFloat K} (ha : a = fin 0 ∨ a = nan)
    (hb : b = fin 0 ∨ b = nan) : a + b = fin 0 ∨ a + b = nan := by
  rcases ha with rfl | rfl <;> rcases hb with rfl | rfl
  · left; simp
  · right; rfl
  · right; rfl
  · right; rfl

/-- A difference of two values that are `0` or `NaN` is `0` or `NaN`. -/
theorem zero_or_nan_sub {a b : CFloat K} (ha : a = fin 0 ∨ a = nan)
    (hb : b = fin 0 ∨ b = nan) : a - b = fin 0 ∨ a - b = nan := by
  rcases ha with rfl | rfl <;> rcases hb with rfl | rfl
  · left; simp
  · right; rfl
  · right; rfl
  · right; rfl

/-- A value that is `0` or `NaN` is not `> 0`. -/
theorem zero_or_nan_not_pos {a : CFloat K} (ha : a = fin 0 ∨ a = nan) : ¬ (fin 0 < a) := by
  rcases ha with rfl | rfl <;> simp

end CFloat

/-- The dot product with the zero vector is `0` or `NaN`. -/
theorem dot_zero_vector (v : Vector3 K) :
    Vector3DotProduct v ⟨fin 0, fin 0, fin 0⟩ = fin 0 ∨
    Vector3DotProduct v ⟨fin 0, fin 0, fin 0⟩ = nan :=
  zero_or_nan_add (zero_or_nan_add (mul_fin_zero _) (mul_fin_zero _)) (mul_fin_zero _)

/-- The dot product of the reflection of the zero vector with any vector is `0` or
`NaN`. -/
theorem dot_reflect_zero_vector (normal view_vector : Vector3 K) :
    Vector3DotProduct (ReflectRay ⟨fin 0, fin 0, fin 0⟩ normal) view_vector = fin 0 ∨
    Vector3DotProduct (ReflectRay ⟨fin 0, fin 0, fin 0⟩ normal) view_vector = nan := by
  have hs : Vector3DotProduct normal ⟨fin 0, fin 0, fin 0⟩ * fin 2 = fin 0 ∨
      Vector3DotProduct normal ⟨fin 0, fin 0, fin 0⟩ * fin 2 = nan :=
    zero_or_nan_mul (dot_zero_vector normal) _
  have hc : ∀ a : CFloat K,
      a * (Vector3DotProduct normal ⟨fin 0, fin 0, fin 0⟩ * fin 2) - fin 0 = fin 0 ∨
      a * (Vector3DotProduct normal ⟨fin 0, fin 0, fin 0⟩ * fin 2) - fin 0 = nan :=
    fun a => zero_or_nan_sub (mul_zero_or_nan a hs) (Or.inl rfl)
  simp only [ReflectRay, Vector3Scale, Vector3Subtract]
  exact zero_or_nan_add
    (zero_or_nan_add (zero_or_nan_mul (hc _) _) (zero_or_nan_mul (hc _) _))
    (zero_or_nan_mul (hc _) _)

/-- A light whose vector `L` is the zero vector contributes nothing: the shadow ray has
no direction and finds nothing, and neither the diffuse nor the specular test passes. -/
theorem light_contribution_zero_vector (env : Env K) (spheres : List (Sphere K))
    (tmax : CFloat K) (point normal view_vector : Vector3 K) (specular : CFloat K)
    (intensity light_intensity : CFloat K) :
    light_contribution env spheres tmax point normal view_vector specular intensity
      ⟨fin 0, fin 0, fin 0⟩ light_intensity = intensity := by
  simp only [light_contribution, ray_closest_intersection_zero_direction, gt_iff_lt,
    zero_or_nan_not_pos (dot_zero_vector normal),
    zero_or_nan_not_pos (dot_reflect_zero_vector normal view_vector), if_false,
    Bool.false_eq_true, ite_self]

/-- Claim C18. A point light positioned exactly at the (finite) shaded point, so that
`L = position - point` is the zero vector, contributes nothing: `compute_light` returns
what it returns with that light removed from the list, and neither the diffuse test
`n_dot_l > 0` nor the specular test `reflection_dot_view > 0` passes, so that neither
division by `|L|` is evaluated. -/
theorem light_at_shaded_point_adds_nothing (env : Env K) (spheres : List (Sphere K))
    (tmax : CFloat K) (before after : List (light K)) (i : CFloat K) (px py pz : K)
    (normal view_vector : Vector3 K) (specular : CFloat K) :
    compute_light env spheres tmax
        (before ++ light.point i ⟨fin px, fin py, fin pz⟩ :: after)
        ⟨fin px, fin py, fin pz⟩ normal view_vector specular =
      compute_light env spheres tmax (before ++ after)
        ⟨fin px, fin py, fin pz⟩ normal view_vector specular ∧
    ¬ (Vector3DotProduct normal
        (Vector3Subtract ⟨fin px, fin py, fin pz⟩ ⟨fin px, fin py, fin pz⟩) > fin 0) ∧
    ¬ (Vector3DotProduct
        (ReflectRay (Vector3Subtract ⟨fin px, fin py, fin pz⟩ ⟨fin px, fin py, fin pz⟩)
          normal) view_vector > fin 0) := by
  have hL : Vector3Subtract (⟨fin px, fin py, fin pz⟩ : Vector3 K) ⟨fin px, fin py, fin pz⟩ =
      ⟨fin 0, fin 0, fin 0⟩ := by
    simp [Vector3Subtract]
  rw [hL]
  refine ⟨?_, zero_or_nan_not_pos (dot_zero_vector normal),
    zero_or_nan_not_pos (dot_reflect_zero_vector normal view_vector)⟩
  simp only [compute_light, List.foldl_append, List.foldl_cons, light_loop_body, hL,
    light_contribution_zero_vector]

/-! ## The sign of the intensity -/

/-- The dot product of two finite vectors. -/
theorem Vector3DotProduct_fin (x1 y1 z1 x2 y2 z2 : K) :
    Vector3DotProduct ⟨fin x1, fin y1, fin z1⟩ ⟨fin x2, fin y2, fin z2⟩ =
      fin (x1 * x2 + y1 * y2 + z1 * z2) := by
  simp [Vector3DotProduct]

/-- The reflection of a finite vector about a finite normal. -/
theorem ReflectRay_fin (rx ry rz nx ny nz : K) :
    ReflectRay ⟨fin rx, fin ry, fin rz⟩ ⟨fin nx, fin ny, fin nz⟩ =
      ⟨fin (nx * ((nx * rx + ny * ry + nz * rz) * 2) - rx),
        fin (ny * ((nx * rx + ny * ry + nz * rz) * 2) - ry),
        fin (nz * ((nx * rx + ny * ry + nz * rz) * 2) - rz)⟩ := by
  simp [ReflectRay, Vector3Scale, Vector3Subtract, Vector3DotProduct]

/-- Two vectors with a non-zero dot product: the first one is not the zero vector. -/
theorem sum_squares_pos_of_dot_ne_zero (x1 y1 z1 x2 y2 z2 : K)
    (h : x1 * x2 + y1 * y2 + z1 * z2 ≠ 0) : 0 < x1 * x1 + y1 * y1 + z1 * z1 := by
  apply sum_squares_pos
  rintro ⟨rfl, rfl, rfl⟩
  apply h
  ring

/-- With a square root that is positive on positive values, the product of the lengths
of two finite vectors with a positive dot product is finite and positive. -/
theorem length_product_pos (env : Env K) (hsqrt : ∀ x, 0 < x → 0 < env.sqrt x)
    (x1 y1 z1 x2 y2 z2 : K) (h : 0 < x1 * x2 + y1 * y2 + z1 * z2) :
    ∃ p, Vector3Length env ⟨fin x1, fin y1, fin z1⟩ *
        Vector3Length env ⟨fin x2, fin y2, fin z2⟩ = fin p ∧ 0 < p := by
  have h1 := hsqrt _ (sum_squares_pos_of_dot_ne_zero x1 y1 z1 x2 y2 z2 (ne_of_gt h))
  have h2 := hsqrt _ (sum_squares_pos_of_dot_ne_zero x2 y2 z2 x1 y1 z1
    (by rw [show x2 * x1 + y2 * y1 + z2 * z1 = x1 * x2 + y1 * y2 + z1 * z2 by ring]
        exact ne_of_gt h))
  exact ⟨_, by rw [Vector3Length_fin, Vector3Length_fin, fin_mul_fin], mul_pos h1 h2⟩

/-- The diffuse term added to a finite intensity `>= 0` leaves a finite intensity
`>= 0`. -/
theorem diffuse_term_nonneg (env : Env K) (hsqrt : ∀ x, 0 < x → 0 < env.sqrt x)
    (nx ny nz lx ly lz a li : K) (ha : 0 ≤ a) (hli : 0 ≤ li) :
    ∃ a1, (if fin 0 < Vector3DotProduct ⟨fin nx, fin ny, fin nz⟩ ⟨fin lx, fin ly, fin lz⟩
        then fin a + fin li *
          Vector3DotProduct ⟨fin nx, fin ny, fin nz⟩ ⟨fin lx, fin ly, fin lz⟩ /
            (Vector3Length env ⟨fin nx, fin ny, fin nz⟩ *
              Vector3Length env ⟨fin lx, fin ly, fin lz⟩)
        else fin a) = fin a1 ∧ 0 ≤ a1 := by
  rw [Vector3DotProduct_fin]
  by_cases hd : 0 < nx * lx + ny * ly + nz * lz
  · obtain ⟨p, hp, hp0⟩ := length_product_pos env hsqrt nx ny nz lx ly lz hd
    rw [if_pos ((fin_lt_fin _ _).2 hd), hp, fin_mul_fin, fin_div_fin _ _ (ne_of_gt hp0),
      fin_add_fin]
    exact ⟨_, rfl, add_nonneg ha (div_nonneg (mul_nonneg hli (le_of_lt hd)) (le_of_lt hp0))⟩
  · rw [if_neg (fun h => hd ((fin_lt_fin _ _).1 h))]
    exact ⟨a, rfl, ha⟩

/-- The specular term added to a finite intensity `>= 0` leaves a finite intensity
`>= 0`, when `powf` is finite and `>= 0` on a positive base. -/
theorem specular_term_nonneg (env : Env K) (hsqrt : ∀ x, 0 < x → 0 < env.sqrt x)
    (rx ry rz vx vy vz a li : K) (specular : CFloat K)
    (hpow : ∀ x, 0 < x → ∃ r, env.powf (fin x) specular = fin r ∧ 0 ≤ r)
    (ha : 0 ≤ a) (hli : 0 ≤ li) :
    ∃ a2, (if fin 0 < Vector3DotProduct ⟨fin rx, fin ry, fin rz⟩ ⟨fin vx, fin vy, fin vz⟩
        then fin a + fin li *
          env.powf (Vector3DotProduct ⟨fin rx, fin ry, fin rz⟩ ⟨fin vx, fin vy, fin vz⟩ /
            (Vector3Length env ⟨fin rx, fin ry, fin rz⟩ *
              Vector3Length env ⟨fin vx, fin vy, fin vz⟩)) specular
        else fin a) = fin a2 ∧ 0 ≤ a2 := by
  rw [Vector3DotProduct_fin]
  by_cases hd : 0 < rx * vx + ry * vy + rz * vz
  · obtain ⟨p, hp, hp0⟩ := length_product_pos env hsqrt rx ry rz vx vy vz hd
    obtain ⟨r, hr, hr0⟩ := hpow _ (div_pos hd hp0)
    rw [if_pos ((fin_lt_fin _ _).2 hd), hp, fin_div_fin _ _ (ne_of_gt hp0), hr, fin_mul_fin,
      fin_add_fin]
    exact ⟨_, rfl, add_nonneg ha (mul_nonneg hli hr0)⟩
  · rw [if_neg (fun h => hd ((fin_lt_fin _ _).1 h))]
    exact ⟨a, rfl, ha⟩

/-- What a point or directional light with a finite intensity `>= 0` and a finite vector
`L` adds to a finite intensity `>= 0`, at a finite normal and view vector, leaves a
finite intensity `>= 0`. -/
theorem light_contribution_nonneg (env : Env K) (hsqrt : ∀ x, 0 < x → 0 < env.sqrt x)
    (spheres : List (Sphere K)) (tmax : CFloat K) (point : Vector3 K)
    (nx ny nz vx vy vz lx ly lz a li : K) (specular : CFloat K)
    (hpow : CFloat.ne specular (fin (-1)) →
      ∀ x, 0 < x → ∃ r, env.powf (fin x) specular = fin r ∧ 0 ≤ r)
    (ha : 0 ≤ a) (hli : 0 ≤ li) :
    ∃ a', light_contribution env spheres tmax point ⟨fin nx, fin ny, fin nz⟩
        ⟨fin vx, fin vy, fin vz⟩ specular (fin a) ⟨fin lx, fin ly, fin lz⟩ (fin li) =
          fin a' ∧ 0 ≤ a' := by
  simp only [light_contribution, gt_iff_lt]
  by_cases hshadow : (ray_closest_intersection env spheres (fin (1 / 1000)) tmax point
      ⟨fin lx, fin ly, fin lz⟩).has_found = true
  · rw [if_pos hshadow]
    exact ⟨a, rfl, ha⟩
  · rw [if_neg hshadow]
    obtain ⟨a1, h1, ha1⟩ := diffuse_term_nonneg env hsqrt nx ny nz lx ly lz a li ha hli
    rw [h1]
    by_cases hne : CFloat.ne specular (fin (-1))
    · rw [if_pos hne, ReflectRay_fin]
      exact specular_term_nonneg env hsqrt _ _ _ vx vy vz a1 li specular (hpow hne) ha1 hli
    · rw [if_neg hne]
      exact ⟨a1, rfl, ha1⟩

/-- One iteration of the loop of `compute_light` on a well-formed light keeps the
intensity finite and `>= 0`. -/
theorem light_loop_body_nonneg (env : Env K) (hsqrt : ∀ x, 0 < x → 0 < env.sqrt x)
    (spheres : List (Sphere K)) (tmax : CFloat K)
    (px py pz nx ny nz vx vy vz a : K) (specular : CFloat K)
    (hpow : CFloat.ne specular (fin (-1)) →
      ∀ x, 0 < x → ∃ r, env.powf (fin x) specular = fin r ∧ 0 ≤ r)
    (ha : 0 ≤ a) (l : light K) (hl : l.wellFormed) :
    ∃ a', light_loop_body env spheres tmax ⟨fin px, fin py, fin pz⟩
        ⟨fin nx, fin ny, fin nz⟩ ⟨fin vx, fin vy, fin vz⟩ specular (fin a) l =
          fin a' ∧ 0 ≤ a' := by
  cases l with
  | ambient i =>
    obtain ⟨b, rfl, hb⟩ := hl
    exact ⟨a + b, rfl, add_nonneg ha hb⟩
  | point i position =>
    obtain ⟨⟨b, rfl, hb⟩, x, y, z, rfl⟩ := hl
    simp only [light_loop_body, Vector3Subtract, fin_sub_fin]
    exact light_contribution_nonneg env hsqrt spheres tmax _ nx ny nz vx vy vz _ _ _ a b
      specular hpow ha hb
  | directional i direction =>
    obtain ⟨⟨b, rfl, hb⟩, x, y, z, rfl⟩ := hl
    simp only [light_loop_body, Vector3Add, fin_add_fin]
    exact light_contribution_nonneg env hsqrt spheres tmax _ nx ny nz vx vy vz _ _ _ a b
      specular hpow ha hb

/-- The loop of `compute_light` over well-formed lights keeps the intensity finite and
`>= 0`. -/
theorem lights_foldl_nonneg (env : Env K) (hsqrt : ∀ x, 0 < x → 0 < env.sqrt x)
    (spheres : List (Sphere K)) (tmax : CFloat K)
    (px py pz nx ny nz vx vy vz : K) (specular : CFloat K)
    (hpow : CFloat.ne specular (fin (-1)) →
      ∀ x, 0 < x → ∃ r, env.powf (fin x) specular = fin r ∧ 0 ≤ r)
    (lights : List (light K)) :
    (∀ l ∈ lights, l.wellFormed) → ∀ a : K, 0 ≤ a →
      ∃ a', lights.foldl (light_loop_body env spheres tmax ⟨fin px, fin py, fin pz⟩
        ⟨fin nx, fin ny, fin nz⟩ ⟨fin vx, fin vy, fin vz⟩ specular) (fin a) =
          fin a' ∧ 0 ≤ a' := by
  induction lights with
  | nil => intro _ a ha; exact ⟨a, rfl, ha⟩
  | cons l ls ih =>
    intro hall a ha
    obtain ⟨a1, h1, ha1⟩ := light_loop_body_nonneg env hsqrt spheres tmax px py pz
      nx ny nz vx vy vz a specular hpow ha l (hall l (List.mem_cons_self l ls))
    rw [List.foldl_cons, h1]
    exact ih (fun l' hl' => hall l' (List.mem_cons_of_mem l hl')) a1 ha1

/-- Claim C12. For a finite shaded point, a finite normal whose length is below
`1 + EPSILON`, a finite view vector and a list of lights with finite intensities `>= 0`
(and finite positions and directions), `compute_light` returns an intensity, which is
finite and `>= 0`, for every sphere list and every specular value.  The parameters are a
square root that is positive on positive values and, when the specular term is
evaluated (`specular != -1`), a `powf` that is finite and `>= 0` on a positive base. -/
theorem compute_light_nonneg (env : Env K) (hsqrt : ∀ x, 0 < x → 0 < env.sqrt x)
    (spheres : List (Sphere K)) (tmax : CFloat K) (lights : List (light K))
    (px py pz nx ny nz vx vy vz : K) (specular : CFloat K)
    (hpow : CFloat.ne specular (fin (-1)) →
      ∀ x, 0 < x → ∃ r, env.powf (fin x) specular = fin r ∧ 0 ≤ r)
    (hlights : ∀ l ∈ lights, l.wellFormed)
    (hassert : Vector3Length env ⟨fin nx, fin ny, fin nz⟩ < fin 1 + fin env.EPSILON) :
    ∃ v, compute_light env spheres tmax lights ⟨fin px, fin py, fin pz⟩
        ⟨fin nx, fin ny, fin nz⟩ ⟨fin vx, fin vy, fin vz⟩ specular = .ok (fin v) ∧
      0 ≤ v := by
  obtain ⟨v, hv, hv0⟩ := lights_foldl_nonneg env hsqrt spheres tmax px py pz nx ny nz
    vx vy vz specular hpow lights hlights 0 (le_refl 0)
  exact ⟨v, by rw [compute_light, if_pos hassert, hv], hv0⟩

/-- The square root of the rational environment is positive on positive values. -/
theorem ratEnv_sqrt_pos (q : ℚ) (hq : 0 < q) : 0 < ratEnv.sqrt q := by
  show 0 < Rat.sqrt q
  rw [Rat.sqrt, Rat.mkRat_eq_div]
  apply div_pos
  · have h1 : 0 < q.num := Rat.num_pos.2 hq
    have h2 : 0 < Nat.sqrt (Int.toNat q.num) := Nat.sqrt_pos.2 (by omega)
    have h3 : 0 < Int.sqrt q.num := by
      rw [Int.sqrt]
      exact_mod_cast h2
    exact_mod_cast h3
  · exact_mod_cast Nat.sqrt_pos.2 q.den_pos

/-- The `powf` of the rational environment with the exponent `2` is the square. -/
theorem ratEnv_powf_two (x : ℚ) : ratEnv.powf (fin x) (fin 2) = fin (x ^ 2) := by
  show ratPowf (fin x) (fin 2) = fin (x ^ 2)
  simp [ratPowf]

/-- Witness for claim C12: the three lights of `main` (ambient `0.2`, point `0.6` at
`(2,1,0)`, directional `0.2` with `(1,4,4)`), the sphere of the scenario, the hit point
`(0,0,2)` with the normal `(0,0,-1)`, the view vector `(0,0,-2)` and the specular
exponent `2`. -/
theorem compute_light_nonneg_witness :
    ∃ v, compute_light ratEnv [scenarioSphere 0] pinf
        [light.ambient (fin (1 / 5)), light.point (fin (3 / 5)) ⟨fin 2, fin 1, fin 0⟩,
          light.directional (fin (1 / 5)) ⟨fin 1, fin 4, fin 4⟩]
        ⟨fin 0, fin 0, fin 2⟩ ⟨fin 0, fin 0, fin (-1)⟩ ⟨fin 0, fin 0, fin (-2)⟩ (fin 2) =
          .ok (fin v) ∧ 0 ≤ v :=
  compute_light_nonneg ratEnv ratEnv_sqrt_pos [scenarioSphere 0] pinf _ 0 0 2 0 0 (-1)
    0 0 (-2) (fin 2)
    (fun _ x _ => ⟨x ^ 2, ratEnv_powf_two x, sq_nonneg x⟩)
    (by
      intro l hl
      simp only [List.mem_cons, List.mem_singleton, List.not_mem_nil, or_false] at hl
      rcases hl with rfl | rfl | rfl
      · exact ⟨1 / 5, rfl, by norm_num⟩
      · exact ⟨⟨3 / 5, rfl, by norm_num⟩, 2, 1, 0, rfl⟩
      · exact ⟨⟨1 / 5, rfl, by norm_num⟩, 1, 4, 4, rfl⟩)
    (scenario_assertion ratEnv ratEnv_sqrt_one (by norm_num [ratEnv]))

/-! ## The assertion, for the calls that `trace_ray` makes -/

/-- The normalisation of a finite vector is a finite vector. -/
theorem Vector3Normalize_fin (env : Env K) (x y z : K) :
    ∃ a b c, Vector3Normalize env ⟨fin x, fin y, fin z⟩ = ⟨fin a, fin b, fin c⟩ := by
  by_cases hL : env.sqrt (x * x + y * y + z * z) = 0
  · exact ⟨x, y, z, by simp [Vector3Normalize, Vector3Length_fin, CFloat.ne, eqb, hL]⟩
  · exact ⟨x * (env.sqrt (x * x + y * y + z * z))⁻¹, y * (env.sqrt (x * x + y * y + z * z))⁻¹,
      z * (env.sqrt (x * x + y * y + z * z))⁻¹,
      by simp [Vector3Normalize, Vector3Length_fin, CFloat.ne, eqb, hL]⟩

/-- With an exact square root, the normalisation of a finite vector other than the zero
vector has length `1`. -/
theorem Vector3Length_Normalize_of_pos (env : Env K)
    (hsqrt : ∀ x, 0 ≤ x → 0 ≤ env.sqrt x ∧ env.sqrt x * env.sqrt x = x) (x y z : K)
    (hq : 0 < x * x + y * y + z * z) :
    Vector3Length env (Vector3Normalize env ⟨fin x, fin y, fin z⟩) = fin 1 := by
  obtain ⟨-, hLL⟩ := hsqrt _ (le_of_lt hq)
  have hL : env.sqrt (x * x + y * y + z * z) ≠ 0 := by
    intro h0
    rw [h0, mul_zero] at hLL
    exact absurd hLL (ne_of_lt hq)
  have e : Vector3Normalize env ⟨fin x, fin y, fin z⟩ =
      ⟨fin (x * (1 / env.sqrt (x * x + y * y + z * z))),
        fin (y * (1 / env.sqrt (x * x + y * y + z * z))),
        fin (z * (1 / env.sqrt (x * x + y * y + z * z)))⟩ := by
    simp [Vector3Normalize, Vector3Length_fin, CFloat.ne, eqb, hL]
  have e1 : x * (1 / env.sqrt (x * x + y * y + z * z)) *
        (x * (1 / env.sqrt (x * x + y * y + z * z))) +
      y * (1 / env.sqrt (x * x + y * y + z * z)) *
        (y * (1 / env.sqrt (x * x + y * y + z * z))) +
      z * (1 / env.sqrt (x * x + y * y + z * z)) *
        (z * (1 / env.sqrt (x * x + y * y + z * z))) = 1 := by
    field_simp
    linear_combination -hLL
  rw [e, Vector3Length_fin, e1, sqrt_one_of_exact env hsqrt]

/-- With an exact square root, on a finite ray the hit point of a sphere with a finite
centre and a radius `sr` lies at the distance `sr` from the centre:
`(P - C).(P - C) = sr*sr` for `P = ro + t*rd`, `t` a root of the sphere inside a
window. -/
theorem hit_point_on_sphere (env : Env K)
    (hsqrt : ∀ x, 0 ≤ x → 0 ≤ env.sqrt x ∧ env.sqrt x * env.sqrt x = x)
    (cx cy cz sr rox roy roz rdx rdy rdz t : K) (tmin tmax : CFloat K)
    (hi : (ray_sphere_intersection env ⟨fin cx, fin cy, fin cz⟩ (fin sr)
      ⟨fin rox, fin roy, fin roz⟩ ⟨fin rdx, fin rdy, fin rdz⟩).is_intersecting = true)
    (ht : fin t = (ray_sphere_intersection env ⟨fin cx, fin cy, fin cz⟩ (fin sr)
        ⟨fin rox, fin roy, fin roz⟩ ⟨fin rdx, fin rdy, fin rdz⟩).intersections.x ∨
      fin t = (ray_sphere_intersection env ⟨fin cx, fin cy, fin cz⟩ (fin sr)
        ⟨fin rox, fin roy, fin roz⟩ ⟨fin rdx, fin rdy, fin rdz⟩).intersections.y)
    (h1 : tmin < fin t) (h2 : fin t < tmax) :
    (rox + rdx * t - cx) * (rox + rdx * t - cx) +
      (roy + rdy * t - cy) * (roy + rdy * t - cy) +
      (roz + rdz * t - cz) * (roz + rdz * t - cz) = sr * sr := by
  have hrd : ¬ (rdx = 0 ∧ rdy = 0 ∧ rdz = 0) := by
    rintro ⟨rfl, rfl, rfl⟩
    by_cases hd : discriminant ⟨fin cx, fin cy, fin cz⟩ (fin sr)
        ⟨fin rox, fin roy, fin roz⟩ (⟨fin 0, fin 0, fin 0⟩ : Vector3 K) < fin 0
    · rw [ray_sphere_intersection_miss env _ _ _ _ hd] at hi
      cases hi
    · rw [ray_sphere_intersection_hit env _ _ _ _ hd, two_a_zero_direction] at ht
      rcases ht with ht | ht <;> rw [ht] at h1 h2
      · exact div_zero_not_between _ tmin tmax ⟨h1, h2⟩
      · exact div_zero_not_between _ tmin tmax ⟨h1, h2⟩
  have hD : 0 ≤ (2 * ((rox - cx) * rdx + (roy - cy) * rdy + (roz - cz) * rdz)) *
          (2 * ((rox - cx) * rdx + (roy - cy) * rdy + (roz - cz) * rdz)) -
        4 * (rdx * rdx + rdy * rdy + rdz * rdz) *
          ((rox - cx) * (rox - cx) + (roy - cy) * (roy - cy) + (roz - cz) * (roz - cz)
            - sr * sr) := by
    by_contra hneg
    rw [ray_sphere_intersection_miss env _ _ _ _
      (by rw [discriminant_fin]; exact (fin_lt_fin _ _).2 (not_le.1 hneg))] at hi
    cases hi
  rw [ray_sphere_intersection_fin env cx cy cz sr rox roy roz rdx rdy rdz hrd hD] at ht
  simp only [fin.injEq] at ht
  have hq := quadratic_formula_root (rdx * rdx + rdy * rdy + rdz * rdz)
    (2 * ((rox - cx) * rdx + (roy - cy) * rdy + (roz - cz) * rdz))
    ((rox - cx) * (rox - cx) + (roy - cy) * (roy - cy) + (roz - cz) * (roz - cz)
      - sr * sr) _ t (ne_of_gt (sum_squares_pos rdx rdy rdz hrd)) (hsqrt _ hD).2 ht
  linear_combination hq

section NoAssertionFailure

variable [FloorRing K]

/-- The conversion to `unsigned char` never fails with a failed assertion. -/
theorem toUChar_ne_assertion_failed (x : CFloat K) :
    toUChar x ≠ .error .assertion_failed := by
  cases x with
  | fin x =>
    simp only [toUChar]
    split_ifs <;> intro h <;> cases h
  | pinf => intro h; cases h
  | ninf => intro h; cases h
  | nan => intro h; cases h

/-- The initialiser of a colour never fails with a failed assertion. -/
theorem mkColor_ne_assertion_failed (r g b : CFloat K) :
    mkColor r g b ≠ .error .assertion_failed := by
  have hr := toUChar_ne_assertion_failed r
  have hg := toUChar_ne_assertion_failed g
  have hb := toUChar_ne_assertion_failed b
  simp only [mkColor, bind, Except.bind, pure, Except.pure]
  cases h1 : toUChar r with
  | error e =>
    simp only
    rw [h1] at hr
    exact fun h => hr (by rw [Except.error.inj h])
  | ok r1 =>
    simp only
    cases h2 : toUChar g with
    | error e =>
      simp only
      rw [h2] at hg
      exact fun h => hg (by rw [Except.error.inj h])
    | ok g1 =>
      simp only
      cases h3 : toUChar b with
      | error e =>
        simp only
        rw [h3] at hb
        exact fun h => hb (by rw [Except.error.inj h])
      | ok b1 => intro h; cases h

/-- With an exact square root, `EPSILON > 0` and spheres with finite centres, no call of
`trace_ray` on a finite ray ends in a failed assertion, the recursive calls included. -/
theorem trace_ray_ne_assertion_failed (env : Env K)
    (hsqrt : ∀ x, 0 ≤ x → 0 ≤ env.sqrt x ∧ env.sqrt x * env.sqrt x = x)
    (heps : 0 < env.EPSILON) (spheres : List (Sphere K))
    (hfin : ∀ s ∈ spheres, s.center.finite) (lights : List (light K))
    (cam_pos : Vector3 K) (tmax : CFloat K) :
    ∀ (n : ℕ) (recursion_depth : Int) (rox roy roz rdx rdy rdz : K) (tmin : CFloat K),
      recursion_depth.toNat = n →
      trace_ray env spheres lights ⟨fin rox, fin roy, fin roz⟩ ⟨fin rdx, fin rdy, fin rdz⟩
        cam_pos tmin tmax recursion_depth ≠ .error .assertion_failed := by
  intro n
  induction n using Nat.strong_induction_on with
  | _ n ih =>
    intro recursion_depth rox roy roz rdx rdy rdz tmin hn
    rw [trace_ray]
    simp only
    by_cases hf : (ray_closest_intersection env spheres tmin tmax ⟨fin rox, fin roy, fin roz⟩
        ⟨fin rdx, fin rdy, fin rdz⟩).has_found = true
    · rw [if_pos hf]
      obtain ⟨-, inv2, -⟩ := ray_closest_intersection_invariant env spheres tmin tmax
        ⟨fin rox, fin roy, fin roz⟩ ⟨fin rdx, fin rdy, fin rdz⟩
      obtain ⟨s, hsmem, hs, -, -, h1, h2⟩ := inv2 hf
      obtain ⟨t, ht⟩ := fin_of_between h1 h2
      obtain ⟨cx, cy, cz, hc⟩ := hfin s hsmem
      rw [hs]
      simp only [ht, hc, Vector3Add, Vector3Scale, Vector3Subtract, fin_mul_fin,
        fin_add_fin, fin_sub_fin]
      rw [compute_light, if_pos (assertion_Normalize_fin env hsqrt heps _ _ _)]
      simp only
      obtain ⟨a, b, c, hN⟩ := Vector3Normalize_fin env (rox + rdx * t - cx)
        (roy + rdy * t - cy) (roz + rdz * t - cz)
      rw [hN, ReflectRay_fin]
      split
      · rename_i e heq
        intro h
        rw [Except.error.inj h] at heq
        exact mkColor_ne_assertion_failed _ _ _ heq
      · split_ifs with hcond
        · intro h
          cases h
        · have hlt : (recursion_depth - 1).toNat < n := by
            have : ¬ recursion_depth ≤ 0 := fun h => hcond (Or.inr h)
            omega
          split
          · rename_i e heq
            intro h
            rw [Except.error.inj h] at heq
            exact ih _ hlt _ _ _ _ _ _ _ _ rfl heq
          · split
            · rename_i e heq
              intro h
              rw [Except.error.inj h] at heq
              exact mkColor_ne_assertion_failed _ _ _ heq
            · split
              · rename_i e heq
                intro h
                rw [Except.error.inj h] at heq
                exact mkColor_ne_assertion_failed _ _ _ heq
              · exact mkColor_ne_assertion_failed _ _ _
    · rw [if_neg hf]
      intro h
      cases h

/-- Claim C19. With an exact square root, `EPSILON > 0`, a finite ray and spheres with
finite centres, the assertion of `compute_light` is never violated by a call made from
`trace_ray`, at any depth: `trace_ray` never ends in a failed assertion, and on a hit the
normal it passes (`Vector3Normalize` of hit point minus sphere centre) has a length below
`1 + EPSILON`, which is exactly `1` when the hit sphere has a finite radius `> 0` (a ray
that hits has a non-zero direction). -/
theorem normal_passes_assertion (env : Env K)
    (hsqrt : ∀ x, 0 ≤ x → 0 ≤ env.sqrt x ∧ env.sqrt x * env.sqrt x = x)
    (heps : 0 < env.EPSILON) (spheres : List (Sphere K))
    (hfin : ∀ s ∈ spheres, s.center.finite) (lights : List (light K))
    (rox roy roz rdx rdy rdz : K) (cam_pos : Vector3 K) (tmin tmax : CFloat K)
    (recursion_depth : Int) :
    trace_ray env spheres lights ⟨fin rox, fin roy, fin roz⟩ ⟨fin rdx, fin rdy, fin rdz⟩
      cam_pos tmin tmax recursion_depth ≠ .error .assertion_failed ∧
    ∀ s : Sphere K,
      (ray_closest_intersection env spheres tmin tmax ⟨fin rox, fin roy, fin roz⟩
        ⟨fin rdx, fin rdy, fin rdz⟩).has_found = true →
      (ray_closest_intersection env spheres tmin tmax ⟨fin rox, fin roy, fin roz⟩
        ⟨fin rdx, fin rdy, fin rdz⟩).closest_sphere = some s →
      Vector3Length env (Vector3Normalize env (Vector3Subtract
          (Vector3Add ⟨fin rox, fin roy, fin roz⟩ (Vector3Scale ⟨fin rdx, fin rdy, fin rdz⟩
            (ray_closest_intersection env spheres tmin tmax ⟨fin rox, fin roy, fin roz⟩
              ⟨fin rdx, fin rdy, fin rdz⟩).closest_t))
          s.center)) < fin 1 + fin env.EPSILON ∧
      ∀ sr : K, s.radius = fin sr → 0 < sr →
        Vector3Length env (Vector3Normalize env (Vector3Subtract
          (Vector3Add ⟨fin rox, fin roy, fin roz⟩ (Vector3Scale ⟨fin rdx, fin rdy, fin rdz⟩
            (ray_closest_intersection env spheres tmin tmax ⟨fin rox, fin roy, fin roz⟩
              ⟨fin rdx, fin rdy, fin rdz⟩).closest_t))
          s.center)) = fin 1 := by
  refine ⟨trace_ray_ne_assertion_failed env hsqrt heps spheres hfin lights cam_pos tmax _
    recursion_depth rox roy roz rdx rdy rdz tmin rfl, fun s hf hs => ?_⟩
  obtain ⟨-, inv2, -⟩ := ray_closest_intersection_invariant env spheres tmin tmax
    ⟨fin rox, fin roy, fin roz⟩ ⟨fin rdx, fin rdy, fin rdz⟩
  obtain ⟨s0, hsmem, hs0, hi, hroot, h1, h2⟩ := inv2 hf
  have hss : s0 = s := Option.some.inj (hs0.symm.trans hs)
  subst hss
  obtain ⟨t, ht⟩ := fin_of_between h1 h2
  obtain ⟨cx, cy, cz, hc⟩ := hfin s0 hsmem
  rw [ht] at hroot h1 h2
  simp only [ht, hc, Vector3Add, Vector3Scale, Vector3Subtract, fin_mul_fin, fin_add_fin,
    fin_sub_fin]
  refine ⟨assertion_Normalize_fin env hsqrt heps _ _ _, fun sr hsr hpos => ?_⟩
  rw [hc, hsr] at hi hroot
  have hq := hit_point_on_sphere env hsqrt cx cy cz sr rox roy roz rdx rdy rdz t tmin tmax
    hi hroot h1 h2
  exact Vector3Length_Normalize_of_pos env hsqrt _ _ _ (by rw [hq]; exact mul_pos hpos hpos)

end NoAssertionFailure

/-- Witness for claim C19: the scenario of the spec over the reals, with the real square
root and `EPSILON = 0.000001`, traced with depth `3` as `main` does. -/
theorem normal_passes_assertion_witness :
    trace_ray (⟨Real.sqrt, fun _ _ => nan, 1 / 1000000⟩ : Env ℝ) [scenarioSphere (1 / 5)]
        [light.ambient (fin (1 / 5)), light.point (fin (3 / 5)) ⟨fin 2, fin 1, fin 0⟩]
        ⟨fin 0, fin 0, fin 0⟩ ⟨fin 0, fin 0, fin 1⟩ scenarioOrigin (fin 1) pinf 3 ≠
      .error .assertion_failed :=
  (normal_passes_assertion (⟨Real.sqrt, fun _ _ => nan, 1 / 1000000⟩ : Env ℝ)
    (fun x hx => ⟨Real.sqrt_nonneg x, Real.mul_self_sqrt hx⟩) (by norm_num)
    [scenarioSphere (1 / 5)]
    (by
      intro s hs
      rw [List.mem_singleton.1 hs]
      exact ⟨0, 0, 3, rfl⟩)
    [light.ambient (fin (1 / 5)), light.point (fin (3 / 5)) ⟨fin 2, fin 1, fin 0⟩]
    0 0 0 0 0 1 scenarioOrigin (fin 1) pinf 3).1

/-! ## The pixel address -/

/-- What holds of the address that `canvas_put_pixel` computes, for a positive screen
width `w` and height `h` and a canvas coordinate with `-w/2 <= x < w/2` and
`-h/2 <= y < h/2`: the column `Sx` lies in `[0, w)`, and the row `Sy` lies in `[1, h]`. -/
theorem canvas_put_pixel_bounds (w h x y : Int) (hw : 0 < w) (hh : 0 < h)
    (hx1 : (-w).tdiv 2 ≤ x) (hx2 : x < w.tdiv 2)
    (hy1 : (-h).tdiv 2 ≤ y) (hy2 : y < h.tdiv 2) :
    (0 ≤ (canvas_put_pixel w h x y).1 ∧ (canvas_put_pixel w h x y).1 < w) ∧
    (1 ≤ (canvas_put_pixel w h x y).2 ∧ (canvas_put_pixel w h x y).2 ≤ h) := by
  rw [Int.neg_tdiv, Int.tdiv_eq_ediv (le_of_lt hw) (by norm_num)] at hx1
  rw [Int.tdiv_eq_ediv (le_of_lt hw) (by norm_num)] at hx2
  rw [Int.neg_tdiv, Int.tdiv_eq_ediv (le_of_lt hh) (by norm_num)] at hy1
  rw [Int.tdiv_eq_ediv (le_of_lt hh) (by norm_num)] at hy2
  simp only [canvas_put_pixel, Int.tdiv_eq_ediv (le_of_lt hw) (by norm_num : (0 : Int) ≤ 2),
    Int.tdiv_eq_ediv (le_of_lt hh) (by norm_num : (0 : Int) ≤ 2)]
  omega

/-- Claim C20, on the screen of `main` (800 by 800): the first canvas coordinate of the
frame loop is `(-400, -400)`, and `canvas_put_pixel` gives it the address `(0, 800)`,
whose row `Sy = 800` is not below the height `800`. -/
theorem canvas_put_pixel_row_out_of_range :
    frame_loop_visits 800 (-400) (-400) ∧
    canvas_put_pixel 800 800 (-400) (-400) = (0, 800) ∧
    ¬ ((canvas_put_pixel 800 800 (-400) (-400)).2 < 800) := by
  refine ⟨?_, rfl, by decide⟩
  unfold frame_loop_visits
  decide

end RayTracer
